import Mathlib

/-!
# barry: the volume module (`audio.go`) and the status-bar glue (`bar.go`)

A shallow embedding of the volume snapshot type, the snapshot reader, the
worker loop, the click handler and the media-title truncation, followed by the
properties established about them.

Conventions of the embedding

* Go `int64` values are mathematical integers; every arithmetic operation that
  can leave the 64-bit range is passed through `wrap64`.
* Go `uint32` values are `UInt32`, converted with `UInt32.toNat`.
* Go `float64` values are the rationals that binary64 represents, every
  operation rounding its exact result to nearest, ties to even.
* A Go `error` is a `String` (its message); `Option Error` is a possibly nil
  error, `none` standing for `nil`.
* Calls on collaborators (the controller, the change delegate, the logger, the
  D-Bus connection) are recorded as explicit lists of effects or events.
-/

namespace Barry

set_option maxRecDepth 8000

/-! ## Machine integers -/

/-- Two's-complement wrap of a mathematical integer into the `int64` range. -/
def wrap64 (x : Int) : Int := (x + 2 ^ 63) % 2 ^ 64 - 2 ^ 63

/-- The values of type `int64`. -/
def IsInt64 (x : Int) : Prop := -(2 ^ 63) ≤ x ∧ x < 2 ^ 63

instance (x : Int) : Decidable (IsInt64 x) := by unfold IsInt64; infer_instance

/-- Go `a + b` on `int64`. -/
def add64 (a b : Int) : Int := wrap64 (a + b)

/-- Go `a - b` on `int64`. -/
def sub64 (a b : Int) : Int := wrap64 (a - b)

/-- Go `a / b` on `int64` for a non-zero divisor: the quotient truncated toward zero. -/
def div64 (a b : Int) : Int := wrap64 (Int.tdiv a b)

/-! ## The `Volume` snapshot (`audio.go`, `type Volume`) -/

/-- A Go `error`, identified with its message. -/
abbrev Error := String

/-- The data fields of `Volume`.  The two remaining fields of the Go struct, `controller` and
`update`, are collaborators: they are passed to the methods that call them (`controller`) or
appear as recorded effects (`update`). -/
structure Volume where
  Min : Int
  Max : Int
  Vol : Int
  Mute : Bool
deriving DecidableEq, Repr

/-- The Go interface `controller`: both methods return a possibly nil error. -/
structure controller where
  setVolume : Int → Option Error
  setMuted : Bool → Option Error

/-- What a method of `Volume` does to the outside world, in order. -/
inductive Effect where
  /-- The call `v.controller.setVolume(newVol)`. -/
  | setVolume (newVol : Int)
  /-- The call `v.controller.setMuted(muted)`. -/
  | setMuted (muted : Bool)
  /-- The call `l.Log(...)` reporting a failed command. -/
  | log (err : Error)
  /-- The call `v.update(v)` of the change delegate with the snapshot `v`. -/
  | update (v : Volume)
deriving DecidableEq, Repr

/-- The method `Volume.SetVolume`: clamp, return when nothing changes, otherwise send the
command and, when it succeeds, hand the changed snapshot to the delegate. -/
def Volume.SetVolume (v : Volume) (c : controller) (volume : Int) : List Effect :=
  let volume := if volume > v.Max then v.Max else volume
  let volume := if volume < v.Min then v.Min else volume
  if volume = v.Vol then []
  else
    match c.setVolume volume with
    | some err => [Effect.setVolume volume, Effect.log err]
    | none => [Effect.setVolume volume, Effect.update { v with Vol := volume }]

/-- The method `Volume.SetMuted`: as `SetVolume`, without a clamp. -/
def Volume.SetMuted (v : Volume) (c : controller) (muted : Bool) : List Effect :=
  if v.Mute = muted then []
  else
    match c.setMuted muted with
    | some err => [Effect.setMuted muted, Effect.log err]
    | none => [Effect.setMuted muted, Effect.update { v with Mute := muted }]

/-! ### Observations on an effect list -/

/-- The controller commands among the effects, in order. -/
def commands (es : List Effect) : List Effect :=
  es.filter fun e =>
    match e with
    | Effect.setVolume _ => true
    | Effect.setMuted _ => true
    | _ => false

/-- The snapshots handed to the change delegate, in order. -/
def updates : List Effect → List Volume
  | [] => []
  | Effect.update v :: es => v :: updates es
  | _ :: es => updates es

/-- The target clamped into `[lo, hi]`, in the words of the specification. -/
def clamp (t lo hi : Int) : Int := max lo (min t hi)

/-- A controller whose commands all succeed. -/
def okController : controller := { setVolume := fun _ => none, setMuted := fun _ => none }

/-- A controller whose commands all fail. -/
def failingController : controller :=
  { setVolume := fun _ => some "set failed", setMuted := fun _ => some "set failed" }

/-! ## The D-Bus connection as an oracle

Every operation of the module on the control bus is a request whose outcome the audio server
decides.  The oracle `Bus` gives the outcome of each request as a function of the request and of
the number of requests made before it, so that the same request can be answered differently at
different times.  A run records its requests and their failures in an event log. -/

/-- A D-Bus object path (`dbus.ObjectPath`). -/
abbrev ObjectPath := String

/-- The payloads of `dbus.Variant` that the module reads or writes. -/
inductive Variant where
  | u32 (n : UInt32)
  | u32s (l : List UInt32)
  | bool (b : Bool)
  | path (p : ObjectPath)
  | str (s : String)
deriving DecidableEq

/-- The requests the module sends. -/
inductive Request where
  /-- The call `dbus.Dial(addr)`. -/
  | dial (addr : String)
  /-- The call `conn.Auth(nil)` on the connection dialled at `addr`. -/
  | auth (addr : String)
  /-- The call `dbus.SessionBusPrivate()`. -/
  | sessionBusPrivate
  /-- The call `obj.GetProperty(prop)`. -/
  | getProperty (obj : ObjectPath) (prop : String)
  /-- The call `org.PulseAudio.Core1.ListenForSignal` on the core object. -/
  | listenForSignal (signal : String) (objects : List ObjectPath)
  /-- The call `org.PulseAudio.Core1.GetSinkByName` on the core object, stored into a path. -/
  | getSinkByName (name : String)
deriving DecidableEq

/-- The environment of a run: the value of `XDG_RUNTIME_DIR` and the outcome of every request,
indexed by the number of requests made before it. -/
structure Bus where
  xdgRuntimeDir : String
  dial : Nat → String → Except Error Unit
  auth : Nat → String → Except Error Unit
  sessionBusPrivate : Nat → Except Error Unit
  getProperty : Nat → ObjectPath → String → Except Error Variant
  listenForSignal : Nat → String → List ObjectPath → Except Error Unit
  getSinkByName : Nat → String → Except Error ObjectPath

/-- What a run does, in order. -/
inductive Event where
  /-- A request was sent; `failed` is the error it returned, if any. -/
  | call (req : Request) (failed : Option Error)
  /-- A connection was closed (`Close()`); `addr` names it. -/
  | close (addr : String)
  /-- The call `s.Set(v)` on the volume cell. -/
  | set (v : Volume)
  /-- The call `s.Error(err)` on the volume cell with a non-nil error. -/
  | error (err : Error)
deriving DecidableEq

/-- The state threaded through a run: the number of requests made and the event log. -/
structure St where
  clock : Nat
  log : List Event

/-- The state before anything happened. -/
def St.init : St := { clock := 0, log := [] }

/-- Append an event that is not a request. -/
def St.emit (s : St) (e : Event) : St := { s with log := s.log ++ [e] }

/-- How a Go function returning `(T, error)` (or just `error`) can end. -/
inductive Res (α : Type) where
  /-- It returned a value and a nil error. -/
  | ok (a : α)
  /-- It returned a non-nil error. -/
  | error (e : Error)
  /-- It did not return: a run-time panic. -/
  | panic (msg : String)
deriving DecidableEq

/-- A Go function that talks to the bus. -/
def Task (α : Type) : Type := St → Res α × St

/-- Return a value with a nil error. -/
def Task.pure {α : Type} (a : α) : Task α := fun s => (Res.ok a, s)

/-- Sequencing with Go's `if err != nil { return ..., err }` after the first step. -/
def Task.bind {α β : Type} (t : Task α) (f : α → Task β) : Task β := fun s =>
  match t s with
  | (Res.ok a, s1) => f a s1
  | (Res.error e, s1) => (Res.error e, s1)
  | (Res.panic msg, s1) => (Res.panic msg, s1)

instance : Monad Task where
  pure := Task.pure
  bind := Task.bind

/-- A run-time panic. -/
def Task.panic {α : Type} (msg : String) : Task α := fun s => (Res.panic msg, s)

/-- Send a request: its outcome is the oracle's answer at the current clock; the request and its
failure, if any, are logged and the clock advances. -/
def request {α : Type} (req : Request) (answer : Nat → Except Error α) : Task α := fun s =>
  match answer s.clock with
  | Except.ok a => (Res.ok a, { clock := s.clock + 1, log := s.log ++ [Event.call req none] })
  | Except.error e =>
      (Res.error e, { clock := s.clock + 1, log := s.log ++ [Event.call req (some e)] })

/-- A deferred `Close()`: run the body, then close the connection, however the body ended. -/
def withClose {α : Type} (addr : String) (body : Task α) : Task α := fun s =>
  match body s with
  | (r, s1) => (r, s1.emit (Event.close addr))

/-- The function `dialAndAuth`; the connection is identified by its address. -/
def dialAndAuth (bus : Bus) (addr : String) : Task String := do
  request (Request.dial addr) (fun n => bus.dial n addr)
  request (Request.auth addr) (fun n => bus.auth n addr)
  return addr

/-- The name under which the private session-bus connection appears in the log. -/
def sessionBusAddr : String := "session"

/-- The function `openPulseAudio`. -/
def openPulseAudio (bus : Bus) : Task String :=
  if bus.xdgRuntimeDir ≠ "" then
    dialAndAuth bus ("unix:path=" ++ bus.xdgRuntimeDir ++ "/pulse/dbus-socket")
  else do
    request Request.sessionBusPrivate bus.sessionBusPrivate
    withClose sessionBusAddr do
      request (Request.auth sessionBusAddr) (fun n => bus.auth n sessionBusAddr)
      let path ← request
        (Request.getProperty "/org/pulseaudio/server_lookup1" "org.PulseAudio.ServerLookup1.Address")
        (fun n => bus.getProperty n "/org/pulseaudio/server_lookup1"
          "org.PulseAudio.ServerLookup1.Address")
      match path with
      | Variant.str addr => dialAndAuth bus addr
      | _ => Task.panic "interface conversion: not a string"

/-- The path of the core object, `core.Path()`. -/
def corePath : ObjectPath := "/org/pulseaudio/core1"

/-- The function `listen`. -/
def listen (bus : Bus) (signal : String) (objects : List ObjectPath) : Task Unit :=
  request (Request.listenForSignal ("org.PulseAudio.Core1." ++ signal) objects)
    (fun n => bus.listenForSignal n ("org.PulseAudio.Core1." ++ signal) objects)

/-- The function `openSink`; the bus object of a sink is identified by its path. -/
def openSink (bus : Bus) (sinkPath : ObjectPath) : Task ObjectPath := do
  listen bus "Device.VolumeUpdated" [sinkPath]
  listen bus "Device.MuteUpdated" [sinkPath]
  return sinkPath

/-- The function `openSinkByName`. -/
def openSinkByName (bus : Bus) (name : String) : Task ObjectPath := do
  let path ← request (Request.getSinkByName name) (fun n => bus.getSinkByName n name)
  openSink bus path

/-- The function `openFallbackSink`. -/
def openFallbackSink (bus : Bus) : Task ObjectPath := do
  let path ← request (Request.getProperty corePath "org.PulseAudio.Core1.FallbackSink")
    (fun n => bus.getProperty n corePath "org.PulseAudio.Core1.FallbackSink")
  match path with
  | Variant.path p => openSink bus p
  | _ => Task.panic "interface conversion: not a dbus.ObjectPath"

/-- The loop `for _, ch := range channels { totalVol += int64(ch) }`. -/
def totalVol (channels : List UInt32) : Int :=
  channels.foldl (fun acc ch => add64 acc (Int.ofNat ch.toNat)) 0

/-- The function `getVolume`.  Go returns the partly filled snapshot next to a non-nil error; its
only caller, `SetOrError`, drops the snapshot in that case, and so does the embedding. -/
def getVolume (bus : Bus) (sink : ObjectPath) : Task Volume := do
  let max ← request (Request.getProperty sink "org.PulseAudio.Core1.Device.BaseVolume")
    (fun n => bus.getProperty n sink "org.PulseAudio.Core1.Device.BaseVolume")
  match max with
  | Variant.u32 max =>
    let vol ← request (Request.getProperty sink "org.PulseAudio.Core1.Device.Volume")
      (fun n => bus.getProperty n sink "org.PulseAudio.Core1.Device.Volume")
    match vol with
    | Variant.u32s channels =>
      if channels.length = 0 then Task.panic "runtime error: integer divide by zero"
      else
        let v : Int := div64 (totalVol channels) (Int.ofNat channels.length)
        let mute ← request (Request.getProperty sink "org.PulseAudio.Core1.Device.Mute")
          (fun n => bus.getProperty n sink "org.PulseAudio.Core1.Device.Mute")
        match mute with
        | Variant.bool mute =>
          return { Min := 0, Max := Int.ofNat max.toNat, Vol := v, Mute := mute }
        | _ => Task.panic "interface conversion: not a bool"
    | _ => Task.panic "interface conversion: not a []uint32"
  | _ => Task.panic "interface conversion: not a uint32"

/-! ## Devices used in examples, and the specification's mean -/

/-- The sum of the channel values, as a natural number. -/
def chanSum (channels : List UInt32) : Nat := (channels.map UInt32.toNat).sum

/-- A device with the given base volume, channel volumes and mute flag, whose reads all succeed. -/
def deviceBus (base : UInt32) (channels : List UInt32) (mute : Bool) : Bus :=
  { xdgRuntimeDir := "/run/user/1000"
    dial := fun _ _ => Except.ok ()
    auth := fun _ _ => Except.ok ()
    sessionBusPrivate := fun _ => Except.ok ()
    getProperty := fun _ _ prop =>
      if prop = "org.PulseAudio.Core1.Device.BaseVolume" then Except.ok (Variant.u32 base)
      else if prop = "org.PulseAudio.Core1.Device.Volume" then Except.ok (Variant.u32s channels)
      else if prop = "org.PulseAudio.Core1.Device.Mute" then Except.ok (Variant.bool mute)
      else Except.ok (Variant.path "/org/pulseaudio/core1/sink0")
    listenForSignal := fun _ _ _ => Except.ok ()
    getSinkByName := fun _ _ => Except.ok "/org/pulseaudio/core1/sink0" }


/-- The device of `deviceBus 65536 [20000, 40000] false`, except that the request number 10 (the
`Volume` read after the first signal, in default-tracking mode) fails. -/
def unplugBus : Bus :=
  { deviceBus 65536 [20000, 40000] false with
    getProperty := fun n obj prop =>
      if n = 10 then Except.error "no such device"
      else (deviceBus 65536 [20000, 40000] false).getProperty n obj prop }

/-- A server with two sinks: `sink0` (channels 20000 and 40000, not muted) and `sink1` (one
channel at 50000, muted), whose fallback sink is `sink1`. -/
def twoSinkBus : Bus :=
  { deviceBus 65536 [20000, 40000] false with
    getProperty := fun n obj prop =>
      if prop = "org.PulseAudio.Core1.FallbackSink" then
        Except.ok (Variant.path "/org/pulseaudio/core1/sink1")
      else if obj = "/org/pulseaudio/core1/sink1" then
        (deviceBus 65536 [50000] true).getProperty n obj prop
      else (deviceBus 65536 [20000, 40000] false).getProperty n obj prop }

/-! ## The click handler (`audio.go`, `defaultClickHandler`) -/

/-- Modelled from the spec: the button identifier of a click event (`bar.Button` of the barista
library, whose declaration is not part of this repository), "drawn from left-click, scroll-up,
scroll-down, other". -/
inductive Button where
  | ButtonLeft
  | ScrollUp
  | ScrollDown
  | other
deriving DecidableEq, Repr

/-- Modelled from the spec: a click event (`bar.Event`), of which the handler reads the button. -/
structure ClickEvent where
  Button : Button
deriving DecidableEq, Repr

/-- The local variable `volStep` of the handler: `(v.Max - v.Min) / 100`, replaced by 1 when it
is 0. -/
def volStep (v : Volume) : Int :=
  let volStep := div64 (sub64 v.Max v.Min) 100
  if volStep = 0 then 1 else volStep

/-- The handler returned by `defaultClickHandler(v)`, applied to the event `e`.  The argument
`allow` is the result of the call `rateLimiter.Allow()` the handler starts with. -/
def defaultClickHandler (v : Volume) (c : controller) (allow : Bool) (e : ClickEvent) :
    List Effect :=
  if !allow then []
  else if e.Button = Button.ButtonLeft then v.SetMuted c (!v.Mute)
  else
    (if e.Button = Button.ScrollUp then v.SetVolume c (add64 v.Vol (volStep v)) else []) ++
    (if e.Button = Button.ScrollDown then v.SetVolume c (sub64 v.Vol (volStep v)) else [])

/-! ## The rate limiter -/

/-- Modelled from the spec: the shared rate limiter (`rate.Limiter` of `golang.org/x/time/rate`,
not part of this repository), "a single shared token bucket" with a capacity and a refill
interval.  Times are in nanoseconds; the content of the bucket is kept as refill time, one token
being worth one interval. -/
structure Limiter where
  /-- The refill interval. -/
  interval : Nat
  /-- The capacity, in tokens. -/
  burst : Nat
  /-- The content of the bucket, in nanoseconds of refill. -/
  credit : Nat
  /-- The time of the last call. -/
  last : Nat
deriving DecidableEq, Repr

/-- Modelled from the spec: the call `Allow()` at time `now`: refill for the time elapsed, up to
the capacity, then take one token if there is one. -/
def Limiter.Allow (lim : Limiter) (now : Nat) : Bool × Limiter :=
  let credit := min (lim.burst * lim.interval) (lim.credit + (now - lim.last))
  if lim.interval ≤ credit then
    (true, { lim with credit := credit - lim.interval, last := now })
  else
    (false, { lim with credit := credit, last := now })

/-- One millisecond, in nanoseconds. -/
def millisecond : Nat := 1000000

/-- The variable `rateLimiter`: `rate.NewLimiter(rate.Every(20*time.Millisecond), 1)`, full when
created. -/
def rateLimiter : Limiter :=
  { interval := 20 * millisecond, burst := 1, credit := 20 * millisecond, last := 0 }

/-- The effects of delivering click events, each with its arrival time, to the handler of the
snapshot `v`, one list of effects per event; the limiter is shared by all of them. -/
def deliver (v : Volume) (c : controller) : Limiter → List (Nat × ClickEvent) → List (List Effect)
  | _, [] => []
  | lim, (now, e) :: rest =>
    defaultClickHandler v c (lim.Allow now).1 e :: deliver v c (lim.Allow now).2 rest

/-- The decisions of the limiter for calls at the given times. -/
def admitted : Limiter → List Nat → List Bool
  | _, [] => []
  | lim, now :: rest => (lim.Allow now).1 :: admitted (lim.Allow now).2 rest

/-- After a grant at time `ta`, a bucket of capacity 1 holds no more than the refill since `ta`. -/
def RefillSince (ta : Nat) (lim : Limiter) : Prop :=
  lim.burst = 1 ∧ ta ≤ lim.last ∧ lim.credit + ta ≤ lim.last


/-! ## The worker (`audio.go`, `paModule.worker`) -/

/-- The PulseAudio implementation of the module; an empty `sinkName` follows the default sink. -/
structure paModule where
  sinkName : String

/-- A signal received from the bus (`dbus.Signal`), of which the worker reads the path. -/
structure Signal where
  Path : ObjectPath
deriving DecidableEq

/-- How a run of the worker over finitely many signals ends. -/
inductive Status where
  /-- The worker returned. -/
  | returned
  /-- The worker panicked. -/
  | panicked
  /-- The worker consumed the signals given and waits for the next one. -/
  | waiting
deriving DecidableEq, Repr

/-- Modelled from the spec: `s.Error(err)` followed by `return` when it reports a non-nil error,
on the volume cell (`value.ErrorValue` of the barista library, not part of this repository):
"publish the error into the volume cell and terminate".  A nil error lets the worker go on with
the value; a panic ends the run. -/
def orPublishError {α : Type} (r : Res α × St) (next : α → St → Status × St) : Status × St :=
  match r with
  | (Res.ok a, s) => next a s
  | (Res.error e, s) => (Status.returned, s.emit (Event.error e))
  | (Res.panic _, s) => (Status.panicked, s)

/-- Modelled from the spec: `s.SetOrError(v, err)` followed by `return` when it reports an
error: the snapshot is published when the error is nil, the error otherwise. -/
def setOrError (r : Res Volume × St) (next : St → Status × St) : Status × St :=
  orPublishError r fun v s => next (s.emit (Event.set v))

/-- The resolution of the sink at the start of the worker: by name, or the fallback sink
together with the subscription to `FallbackSinkUpdated`. -/
def resolveSink (m : paModule) (bus : Bus) : Task ObjectPath :=
  if m.sinkName ≠ "" then openSinkByName bus m.sinkName
  else do
    let sink ← openFallbackSink bus
    listen bus "FallbackSinkUpdated" []
    return sink

/-- What the body of the signal loop decides. -/
inductive Step where
  /-- Go on with the next signal, holding this sink. -/
  | next (sink : ObjectPath)
  /-- Leave the loop. -/
  | stop (status : Status)
deriving DecidableEq

/-- The body of the loop `for signal := range signals`. -/
def handleSignal (m : paModule) (bus : Bus) (sink : ObjectPath) (signal : Signal) (s : St) :
    Step × St :=
  if m.sinkName = "" ∧ signal.Path = corePath then
    match openFallbackSink bus s with
    | (Res.ok sink', s1) =>
      (match getVolume bus sink' s1 with
      | (Res.ok v, s2) => (Step.next sink', s2.emit (Event.set v))
      | (Res.error e, s2) => (Step.stop Status.returned, s2.emit (Event.error e))
      | (Res.panic _, s2) => (Step.stop Status.panicked, s2))
    | (Res.error e, s1) => (Step.stop Status.returned, s1.emit (Event.error e))
    | (Res.panic _, s1) => (Step.stop Status.panicked, s1)
  else
    match getVolume bus sink s with
    | (Res.ok v, s2) => (Step.next sink, s2.emit (Event.set v))
    | (Res.error e, s2) => (Step.stop Status.returned, s2.emit (Event.error e))
    | (Res.panic _, s2) => (Step.stop Status.panicked, s2)

/-- The loop `for signal := range signals` over the signals that arrive. -/
def signalLoop (m : paModule) (bus : Bus) : ObjectPath → List Signal → St → Status × St
  | _, [], s => (Status.waiting, s)
  | sink, signal :: rest, s =>
    match handleSignal m bus sink signal s with
    | (Step.next sink', s1) => signalLoop m bus sink' rest s1
    | (Step.stop status, s1) => (status, s1)

/-- The method `paModule.worker`, run on the signals that arrive.  The deferred `conn.Close()`
runs when the worker returns or panics after the connection was opened. -/
def worker (m : paModule) (bus : Bus) (signals : List Signal) (s : St) : Status × St :=
  orPublishError (openPulseAudio bus s) fun conn s1 =>
    match
      orPublishError (resolveSink m bus s1) fun sink s2 =>
        setOrError (getVolume bus sink s2) fun s3 =>
          signalLoop m bus sink signals s3
    with
    | (Status.waiting, s4) => (Status.waiting, s4)
    | (status, s4) => (status, s4.emit (Event.close conn))

/-- Modelled from the spec: what an event does to the content of the volume cell, "a latest
value/error pair": a publication replaces it, anything else leaves it. -/
def store (content : Option (Except Error Volume)) : Event → Option (Except Error Volume)
  | Event.set v => some (Except.ok v)
  | Event.error err => some (Except.error err)
  | _ => content

/-- Modelled from the spec: the content of the volume cell after the events of a log, what a
read of the cell returns. -/
def cell (log : List Event) : Option (Except Error Volume) := log.foldl store none

/-- A failed request. -/
def Event.isFailure : Event → Bool
  | Event.call _ (some _) => true
  | _ => false

/-- The publication of an error into the cell. -/
def Event.isError : Event → Bool
  | Event.error _ => true
  | _ => false

/-- The closing of a connection. -/
def Event.isClose : Event → Bool
  | Event.close _ => true
  | _ => false

/-- A stretch of a run in which no request fails and no error is published. -/
def Quiet (evs : List Event) : Prop := ∀ e ∈ evs, e.isFailure = false ∧ e.isError = false

/-- A stretch of a run that only closes connections. -/
def Closing (evs : List Event) : Prop := ∀ e ∈ evs, e.isClose = true

/-- The events of a function that returned the error `e`: a stretch without failure, the request
that failed with `e`, then only deferred closings. -/
def Fails (e : Error) (evs : List Event) : Prop :=
  ∃ pre req cl, evs = pre ++ Event.call req (some e) :: cl ∧ Quiet pre ∧ Closing cl

/-- The events a function may produce, given how it ended. -/
def Shape {α : Type} : Res α → List Event → Prop
  | Res.error e, evs => Fails e evs
  | _, evs => Quiet evs

/-- A function whose non-nil error is always the error of its last request, which failed. -/
def TaskOk {α : Type} (t : Task α) : Prop :=
  ∀ s, ∃ evs, (t s).2.log = s.log ++ evs ∧ Shape (t s).1 evs

/-- The events of a run that ended on the fatal error `e`: a stretch without failure, the request
that failed with `e`, the publication of `e` (after deferred closings at most), and nothing
after it but closings. -/
def Fatal (e : Error) (evs : List Event) : Prop :=
  ∃ pre req c1 c2, evs = pre ++ Event.call req (some e) :: (c1 ++ Event.error e :: c2) ∧
    Quiet pre ∧ Closing c1 ∧ Closing c2

/-- The events a run of the worker may add to a log, given how it ended. -/
def RunOk (s0 : St) (r : Status × St) : Prop :=
  ∃ evs, r.2.log = s0.log ++ evs ∧
    ((r.1 ≠ Status.returned ∧ Quiet evs) ∨ (r.1 = Status.returned ∧ ∃ e, Fatal e evs))

/-! ## Titles of the media widget (`bar.go`, `truncate` and `spotifyControls`) -/

/-- Go `len(s)` of a string: its length in bytes, the string being UTF-8 text given by its runes. -/
def byteLen (s : List Char) : Nat := (s.map Char.utf8Size).sum

/-- The string literal appended by `truncate`, as the source file holds it: the three runes
U+00E2, U+2039, U+00AF. -/
def ellipsis : List Char := [Char.ofNat 0xE2, Char.ofNat 0x2039, Char.ofNat 0xAF]

/-- The function `truncate`; `none` is the run-time panic "slice bounds out of range" of the
slice expression `[]rune(in)[:l-1]`, whose bound `l-1` must lie between 0 and the capacity of
the slice.  The expression is only reached with more than `l` runes, so that the upper bound
holds whatever the capacity; the check is made against the length. -/
def truncate (inp : List Char) (l : Int) : Option (List Char) :=
  if (inp.length : Int) ≤ l then some inp
  else if 0 ≤ l - 1 ∧ l - 1 ≤ (inp.length : Int) then some (inp.take (l - 1).toNat ++ ellipsis)
  else none

/-- The text built by the output function of `spotifyControls` from the artist and the title of
the track: the arguments `title` and `artist` of `text("%s - %s", title, artist)`, or `none`
when a call of `truncate` panics. -/
def spotifyControlsText (mArtist mTitle : List Char) : Option (List Char × List Char) :=
  match truncate mArtist 20 with
  | none => none
  | some artist =>
    match truncate mTitle (40 - (byteLen artist : Int)) with
    | none => none
    | some title =>
      if byteLen title < 20 then
        match truncate mArtist (40 - (byteLen title : Int)) with
        | none => none
        | some artist => some (title, artist)
      else some (title, artist)

/-- An artist name of fourteen runes of three bytes each (HIRAGANA LETTER A). -/
def artist14 : List Char := List.replicate 14 (Char.ofNat 0x3042)

/-! ## Floating point (`audio.go`, `Volume.Frac` and `Volume.Pct`)

Go's `float64` is the IEEE-754 binary64 format: 53 significant bits, exponents of the unit in
the last place from -1074 up, round to nearest with ties to even.  Every operation returns the
exact result rounded once. -/

/-- A `float64` value: `some q` is the finite value `q`; `none` stands for NaN and the two
infinities, which no operation used here turns back into a finite value.  The sign of zero is not
kept: it cannot be observed by the operations used here, the only divisors being converted
integers. -/
abbrev Float64 := Option ℚ

/-- The integer nearest to `x`, the even one of the two when `x` lies halfway. -/
def roundEven (x : ℚ) : ℤ :=
  if x - ⌊x⌋ < 1 / 2 then ⌊x⌋
  else if 1 / 2 < x - ⌊x⌋ then ⌊x⌋ + 1
  else if ⌊x⌋ % 2 = 0 then ⌊x⌋ else ⌊x⌋ + 1

/-- The exponent of the unit in the last place of the binary64 values around `q ≠ 0`: 52 below
the exponent of `q`, and -1074 for the subnormal values. -/
def ulpExp (q : ℚ) : ℤ := max (Int.log 2 |q|) (-1022) - 52

/-- The exact result `q` rounded to binary64: the nearest multiple of the unit in the last place,
ties to even; an infinity when that is `2 ^ 1024` or more in magnitude. -/
def round64 (q : ℚ) : Float64 :=
  if q = 0 then some 0
  else
    let r : ℚ := (roundEven (q / 2 ^ ulpExp q) : ℚ) * 2 ^ ulpExp q
    if |r| < 2 ^ (1024 : ℕ) then some r else none

/-- The conversion `float64(x)` of an `int64`. -/
def float64 (x : Int) : Float64 := round64 (x : ℚ)

/-- The quotient `a / b` in `float64`; a zero divisor gives NaN or an infinity. -/
def fdiv (a b : Float64) : Float64 :=
  match a, b with
  | some x, some y => if y = 0 then none else round64 (x / y)
  | _, _ => none

/-- The product `a * b` in `float64`. -/
def fmul (a b : Float64) : Float64 :=
  match a, b with
  | some x, some y => round64 (x * y)
  | _, _ => none

/-- The sum `a + b` in `float64`. -/
def fadd (a b : Float64) : Float64 :=
  match a, b with
  | some x, some y => round64 (x + y)
  | _, _ => none

/-- The fused multiply-add `a * b + c`, rounded once; the Go specification lets an implementation
compute `x*y + z` this way. -/
def fma (a b c : Float64) : Float64 :=
  match a, b, c with
  | some x, some y, some z => round64 (x * y + z)
  | _, _, _ => none

/-- The conversion `int(f)` of a `float64` (64-bit `int`): the value truncated toward zero;
`none` when the value is not finite or does not fit, where the result is
implementation-dependent. -/
def toInt (f : Float64) : Option Int :=
  match f with
  | some q =>
    if -(2 : ℚ) ^ (63 : ℕ) ≤ q ∧ q < (2 : ℚ) ^ (63 : ℕ) then
      some (if 0 ≤ q then ⌊q⌋ else ⌈q⌉)
    else none
  | none => none

/-- The method `Volume.Frac`. -/
def Volume.Frac (v : Volume) : Float64 :=
  fdiv (float64 (sub64 v.Vol v.Min)) (float64 (sub64 v.Max v.Min))

/-- The method `Volume.Pct`, product and sum rounded separately. -/
def Volume.Pct (v : Volume) : Option Int :=
  toInt (fadd (fmul v.Frac (some 100)) (some (1 / 2)))

/-- The method `Volume.Pct`, product and sum fused. -/
def Volume.PctFused (v : Volume) : Option Int :=
  toInt (fma v.Frac (some 100) (some (1 / 2)))

/-- The percentage in the words of the specification: `100 * (Vol - Min) / (Max - Min)` rounded
to the nearest integer, halves rounded up. -/
def pctSpec (v : Volume) : ℤ :=
  round ((((100 * (v.Vol - v.Min) : ℤ) : ℚ)) / (((v.Max - v.Min : ℤ)) : ℚ))

/-! ## Properties of `SetVolume` and `SetMuted` -/

/-- The two conditional assignments of `SetVolume` compute the clamp when `Min ≤ Max`. -/
theorem clamp_eq_ite (t lo hi : Int) (h : lo ≤ hi) :
    (if (if t > hi then hi else t) < lo then lo else (if t > hi then hi else t)) = clamp t lo hi := by
  unfold clamp
  split_ifs <;> omega

/-- C1: for `Min ≤ Max`, with `c` the target clamped into `[Min, Max]`: when `c = Vol` the call
has no effect at all (no command, no delegate call); otherwise exactly one command is issued, a
`setVolume` carrying `c`, and the delegate is called (once, with `v` where `Vol` is replaced by
`c`) exactly when the command succeeds. -/
theorem SetVolume_contract (v : Volume) (c : controller) (t : Int) (h : v.Min ≤ v.Max) :
    (clamp t v.Min v.Max = v.Vol → v.SetVolume c t = []) ∧
    (clamp t v.Min v.Max ≠ v.Vol →
      commands (v.SetVolume c t) = [Effect.setVolume (clamp t v.Min v.Max)] ∧
      updates (v.SetVolume c t) =
        (if c.setVolume (clamp t v.Min v.Max) = none then
          [{ Min := v.Min, Max := v.Max, Vol := clamp t v.Min v.Max, Mute := v.Mute }]
        else [])) := by
  have hc := clamp_eq_ite t v.Min v.Max h
  constructor
  · intro heq
    unfold Volume.SetVolume
    simp only [hc, heq, if_true]
  · intro hne
    unfold Volume.SetVolume
    simp only [hc, hne, if_false]
    cases hs : c.setVolume (clamp t v.Min v.Max) <;> simp [commands, updates]

/-- The end-to-end example: on `{Min 0, Max 100, Vol 40}` the call `SetVolume(150)` issues one
command, carrying 100, and the delegate receives `Vol = 100`; `SetVolume(100)` on that snapshot
does nothing.  When the command fails, it is still the only command and the delegate is not
called. -/
theorem SetVolume_contract_witness :
    (0 : Int) ≤ 100 ∧
    commands (Volume.SetVolume ⟨0, 100, 40, false⟩ okController 150) = [Effect.setVolume 100] ∧
    updates (Volume.SetVolume ⟨0, 100, 40, false⟩ okController 150) = [⟨0, 100, 100, false⟩] ∧
    Volume.SetVolume ⟨0, 100, 100, false⟩ okController 100 = [] ∧
    commands (Volume.SetVolume ⟨0, 100, 40, false⟩ failingController 150)
      = [Effect.setVolume 100] ∧
    updates (Volume.SetVolume ⟨0, 100, 40, false⟩ failingController 150) = [] := by
  have h := (SetVolume_contract ⟨0, 100, 40, false⟩ okController 150 (by decide)).2 (by decide)
  have h0 := (SetVolume_contract ⟨0, 100, 100, false⟩ okController 100 (by decide)).1 (by decide)
  exact ⟨by decide, h.1, by decide, h0, by decide, by decide⟩

/-- C5: when the target equals `Mute` the call has no effect at all; otherwise exactly one
command is issued, a `setMuted` carrying the target, and the delegate is called (once, with `v`
where `Mute` is replaced by the target) exactly when the command succeeds. -/
theorem SetMuted_contract (v : Volume) (c : controller) (m : Bool) :
    (m = v.Mute → v.SetMuted c m = []) ∧
    (m ≠ v.Mute →
      commands (v.SetMuted c m) = [Effect.setMuted m] ∧
      updates (v.SetMuted c m) =
        (if c.setMuted m = none then
          [{ Min := v.Min, Max := v.Max, Vol := v.Vol, Mute := m }]
        else [])) := by
  constructor
  · intro heq
    unfold Volume.SetMuted
    simp [heq]
  · intro hne
    unfold Volume.SetMuted
    have hne2 : ¬ v.Mute = m := fun h => hne h.symm
    simp only [hne2, if_false]
    cases hs : c.setMuted m <;> simp [commands, updates]

/-! ## The snapshot reader `getVolume` -/

theorem wrap64_of_isInt64 (x : Int) (h : IsInt64 x) : wrap64 x = x := by
  unfold IsInt64 at h
  unfold wrap64
  have h1 : (0 : Int) ≤ x + 2 ^ 63 := by omega
  have h2 : x + 2 ^ 63 < 2 ^ 64 := by omega
  rw [Int.emod_eq_of_lt h1 h2]
  omega

theorem u32_toNat_lt (ch : UInt32) : ch.toNat < 2 ^ 32 := ch.val.isLt

/-- The running total never wraps while it stays below `2 ^ 63`. -/
theorem foldl_add64 (channels : List UInt32) :
    ∀ acc : Int, 0 ≤ acc → acc + (channels.length : Int) * 2 ^ 32 < 2 ^ 63 →
      channels.foldl (fun a ch => add64 a (Int.ofNat ch.toNat)) acc = acc + (chanSum channels : Int) := by
  induction channels with
  | nil => intro acc _ _; simp [chanSum]
  | cons ch rest ih =>
    intro acc h0 hlt
    have hch := u32_toNat_lt ch
    simp only [List.length_cons, Nat.cast_add, Nat.cast_one] at hlt
    have hstep : add64 acc (Int.ofNat ch.toNat) = acc + (ch.toNat : Int) := by
      unfold add64
      apply wrap64_of_isInt64
      unfold IsInt64
      simp only [Int.ofNat_eq_coe]
      constructor <;> omega
    simp only [List.foldl_cons, hstep]
    rw [ih (acc + (ch.toNat : Int)) (by omega) (by omega)]
    simp only [chanSum, List.map_cons, List.sum_cons, Nat.cast_add]
    omega

theorem totalVol_eq (channels : List UInt32) (hlen : channels.length < 2 ^ 31) :
    totalVol channels = (chanSum channels : Int) := by
  unfold totalVol
  rw [foldl_add64 channels 0 (le_refl 0) (by
    have : (channels.length : Int) < 2 ^ 31 := by exact_mod_cast hlen
    omega)]
  simp

theorem chanSum_le (channels : List UInt32) : chanSum channels ≤ channels.length * (2 ^ 32 - 1) := by
  induction channels with
  | nil => simp [chanSum]
  | cons ch rest ih =>
    have hch := u32_toNat_lt ch
    simp only [chanSum, List.map_cons, List.sum_cons, List.length_cons] at ih ⊢
    omega

/-- The mean computed by `getVolume` is the truncated mean of the channel values. -/
theorem mean_eq (channels : List UInt32) (hne : channels ≠ []) (hlen : channels.length < 2 ^ 31) :
    div64 (totalVol channels) (Int.ofNat channels.length)
      = ((chanSum channels / channels.length : Nat) : Int) := by
  rw [totalVol_eq channels hlen]
  unfold div64
  have hpos : 0 < channels.length := List.length_pos.mpr hne
  have htdiv : Int.tdiv (chanSum channels : Int) (Int.ofNat channels.length)
      = ((chanSum channels / channels.length : Nat) : Int) := by
    simp only [Int.ofNat_eq_coe]
    exact (Int.ofNat_tdiv _ _).symm
  rw [htdiv]
  apply wrap64_of_isInt64
  unfold IsInt64
  have hle := chanSum_le channels
  have hdiv : chanSum channels / channels.length < 2 ^ 32 := by
    apply Nat.div_lt_of_lt_mul
    omega
  have hdiv2 : ((chanSum channels / channels.length : Nat) : Int) < 2 ^ 32 := by
    exact_mod_cast hdiv
  have hdiv0 : (0 : Int) ≤ ((chanSum channels / channels.length : Nat) : Int) :=
    Int.ofNat_nonneg _
  generalize ((chanSum channels / channels.length : Nat) : Int) = q at hdiv2 hdiv0 ⊢
  constructor <;> omega

/-- What `getVolume` returns when its three reads succeed with well-typed values and the device
reports at least one channel. -/
theorem getVolume_eq (bus : Bus) (sink : ObjectPath) (s : St) (base : UInt32)
    (channels : List UInt32) (mute : Bool)
    (hbase : bus.getProperty s.clock sink "org.PulseAudio.Core1.Device.BaseVolume"
      = Except.ok (Variant.u32 base))
    (hvol : bus.getProperty (s.clock + 1) sink "org.PulseAudio.Core1.Device.Volume"
      = Except.ok (Variant.u32s channels))
    (hmute : bus.getProperty (s.clock + 2) sink "org.PulseAudio.Core1.Device.Mute"
      = Except.ok (Variant.bool mute))
    (hne : channels ≠ []) :
    (getVolume bus sink s).1 = Res.ok
      { Min := 0, Max := Int.ofNat base.toNat,
        Vol := div64 (totalVol channels) (Int.ofNat channels.length), Mute := mute } := by
  have hlen : ¬ channels.length = 0 := fun h => hne (List.length_eq_zero.mp h)
  simp [getVolume, bind, Task.bind, request, hbase, hvol, hmute, hlen, pure, Task.pure]

/-- C4 (amended): when the `BaseVolume`, `Volume` and `Mute` reads of a device all succeed and the
device reports at least one channel (and fewer than `2 ^ 31`, so that the `int64` total cannot
wrap), `getVolume` returns a snapshot, not an error, with `Min = 0`, `Max` the base volume, `Mute`
the mute flag and `Vol` the sum of the channel values divided by their count, truncated. -/
theorem getVolume_mean (bus : Bus) (sink : ObjectPath) (s : St) (base : UInt32)
    (channels : List UInt32) (mute : Bool)
    (hbase : bus.getProperty s.clock sink "org.PulseAudio.Core1.Device.BaseVolume"
      = Except.ok (Variant.u32 base))
    (hvol : bus.getProperty (s.clock + 1) sink "org.PulseAudio.Core1.Device.Volume"
      = Except.ok (Variant.u32s channels))
    (hmute : bus.getProperty (s.clock + 2) sink "org.PulseAudio.Core1.Device.Mute"
      = Except.ok (Variant.bool mute))
    (hne : channels ≠ []) (hlen : channels.length < 2 ^ 31) :
    (getVolume bus sink s).1 = Res.ok
      { Min := 0, Max := (base.toNat : Int),
        Vol := ((chanSum channels / channels.length : Nat) : Int), Mute := mute } := by
  rw [getVolume_eq bus sink s base channels mute hbase hvol hmute hne, mean_eq channels hne hlen]
  rfl

/-- The channels `[20000, 40000]` give `Vol = 30000`. -/
theorem getVolume_mean_witness :
    (getVolume (deviceBus 65536 [20000, 40000] false) "/org/pulseaudio/core1/sink0" St.init).1
      = Res.ok { Min := 0, Max := 65536, Vol := 30000, Mute := false } :=
  getVolume_mean (deviceBus 65536 [20000, 40000] false) "/org/pulseaudio/core1/sink0" St.init
    65536 [20000, 40000] false rfl rfl rfl (by decide) (by decide)

/-- C4 as stated fails: a device whose three reads succeed but whose channel list is empty makes
`getVolume` divide by zero; it panics instead of returning a snapshot. -/
theorem getVolume_empty_channels_panics :
    (deviceBus 65536 [] false).getProperty 0 "/org/pulseaudio/core1/sink0"
        "org.PulseAudio.Core1.Device.BaseVolume" = Except.ok (Variant.u32 65536) ∧
    (deviceBus 65536 [] false).getProperty 1 "/org/pulseaudio/core1/sink0"
        "org.PulseAudio.Core1.Device.Volume" = Except.ok (Variant.u32s []) ∧
    (deviceBus 65536 [] false).getProperty 2 "/org/pulseaudio/core1/sink0"
        "org.PulseAudio.Core1.Device.Mute" = Except.ok (Variant.bool false) ∧
    (getVolume (deviceBus 65536 [] false) "/org/pulseaudio/core1/sink0" St.init).1
      = Res.panic "runtime error: integer divide by zero" ∧
    ¬ ∃ v : Volume,
      (getVolume (deviceBus 65536 [] false) "/org/pulseaudio/core1/sink0" St.init).1 = Res.ok v := by
  refine ⟨rfl, rfl, rfl, by decide, ?_⟩
  rintro ⟨v, hv⟩
  have hp : (getVolume (deviceBus 65536 [] false) "/org/pulseaudio/core1/sink0" St.init).1
      = Res.panic "runtime error: integer divide by zero" := by decide
  rw [hp] at hv
  cases hv

/-! ## The range invariant `Min ≤ Vol ≤ Max` -/

theorem chanSum_le_of_le (channels : List UInt32) (base : UInt32)
    (h : ∀ ch ∈ channels, ch.toNat ≤ base.toNat) :
    chanSum channels ≤ channels.length * base.toNat := by
  induction channels with
  | nil => simp [chanSum]
  | cons ch rest ih =>
    have h1 := h ch (List.mem_cons_self _ _)
    have h2 := ih (fun c hc => h c (List.mem_cons_of_mem _ hc))
    simp only [chanSum, List.map_cons, List.sum_cons, List.length_cons] at h2 ⊢
    rw [Nat.add_mul]
    omega

/-- The delegate of `SetVolume` receives nothing, or `v` with `Vol` replaced by the clamp. -/
theorem updates_SetVolume (v : Volume) (c : controller) (t : Int) (h : v.Min ≤ v.Max) :
    updates (v.SetVolume c t) = [] ∨
    updates (v.SetVolume c t) = [{ v with Vol := clamp t v.Min v.Max }] := by
  have hc := clamp_eq_ite t v.Min v.Max h
  unfold Volume.SetVolume
  simp only [hc]
  split_ifs with heq
  · left; rfl
  · cases hs : c.setVolume (clamp t v.Min v.Max) <;> simp [updates]

/-- The delegate of `SetMuted` receives nothing, or `v` with `Mute` replaced. -/
theorem updates_SetMuted (v : Volume) (c : controller) (m : Bool) :
    updates (v.SetMuted c m) = [] ∨ updates (v.SetMuted c m) = [{ v with Mute := m }] := by
  unfold Volume.SetMuted
  split_ifs with heq
  · left; rfl
  · cases hs : c.setMuted m <;> simp [updates]

/-- Where the range `Min ≤ Vol ≤ Max` does hold: a snapshot returned by `getVolume` (reads
succeeding, at least one channel and fewer than `2 ^ 31`) has `Min = 0 ≤ Vol`, and `Vol ≤ Max`
when no channel value exceeds the base volume; every snapshot `SetVolume` hands to the delegate
is in range when the receiver has `Min ≤ Max`; `SetMuted` hands over a snapshot in range when the
receiver is in range. -/
theorem snapshot_range :
    (∀ (bus : Bus) (sink : ObjectPath) (s : St) (base : UInt32) (channels : List UInt32)
        (mute : Bool) (v : Volume),
      bus.getProperty s.clock sink "org.PulseAudio.Core1.Device.BaseVolume"
        = Except.ok (Variant.u32 base) →
      bus.getProperty (s.clock + 1) sink "org.PulseAudio.Core1.Device.Volume"
        = Except.ok (Variant.u32s channels) →
      bus.getProperty (s.clock + 2) sink "org.PulseAudio.Core1.Device.Mute"
        = Except.ok (Variant.bool mute) →
      channels ≠ [] → channels.length < 2 ^ 31 →
      (getVolume bus sink s).1 = Res.ok v →
      v.Min = 0 ∧ v.Min ≤ v.Vol ∧
        ((∀ ch ∈ channels, ch.toNat ≤ base.toNat) → v.Vol ≤ v.Max)) ∧
    (∀ (v : Volume) (c : controller) (t : Int), v.Min ≤ v.Max →
      ∀ w ∈ updates (v.SetVolume c t), w.Min ≤ w.Vol ∧ w.Vol ≤ w.Max) ∧
    (∀ (v : Volume) (c : controller) (m : Bool), v.Min ≤ v.Vol → v.Vol ≤ v.Max →
      ∀ w ∈ updates (v.SetMuted c m), w.Min ≤ w.Vol ∧ w.Vol ≤ w.Max) := by
  refine ⟨?_, ?_, ?_⟩
  · intro bus sink s base channels mute v hbase hvol hmute hne hlen hv
    rw [getVolume_eq bus sink s base channels mute hbase hvol hmute hne,
      mean_eq channels hne hlen] at hv
    injection hv with hv
    subst hv
    refine ⟨rfl, ?_, ?_⟩
    · show (0 : Int) ≤ ((chanSum channels / channels.length : Nat) : Int)
      exact Int.ofNat_nonneg _
    · intro hch
      show ((chanSum channels / channels.length : Nat) : Int) ≤ Int.ofNat base.toNat
      have hle := chanSum_le_of_le channels base hch
      have hd : chanSum channels / channels.length ≤ base.toNat := by
        apply Nat.div_le_of_le_mul
        exact hle
      exact Int.ofNat_le.mpr hd
  · intro v c t h w hw
    rcases updates_SetVolume v c t h with h0 | h1
    · rw [h0] at hw; cases hw
    · rw [h1] at hw
      simp only [List.mem_singleton] at hw
      subst hw
      simp only [clamp]
      constructor
      · exact le_max_left _ _
      · exact max_le h (min_le_right _ _)
  · intro v c m h1 h2 w hw
    rcases updates_SetMuted v c m with h0 | h3
    · rw [h0] at hw; cases hw
    · rw [h3] at hw
      simp only [List.mem_singleton] at hw
      subst hw
      exact ⟨h1, h2⟩

/-- The three parts of the range property at concrete inputs: the device with base volume 65536
and channels `[20000, 40000]`, and the snapshot `{Min 0, Max 100, Vol 40}`. -/
theorem snapshot_range_witness :
    ((0 : Int) ≤ 30000 ∧ (30000 : Int) ≤ 65536) ∧
    (∀ w ∈ updates (Volume.SetVolume ⟨0, 100, 40, false⟩ okController 150),
      w.Min ≤ w.Vol ∧ w.Vol ≤ w.Max) ∧
    (∀ w ∈ updates (Volume.SetMuted ⟨0, 100, 40, false⟩ okController true),
      w.Min ≤ w.Vol ∧ w.Vol ≤ w.Max) := by
  refine ⟨?_, ?_, ?_⟩
  · have h := snapshot_range.1 (deviceBus 65536 [20000, 40000] false)
      "/org/pulseaudio/core1/sink0" St.init 65536 [20000, 40000] false
      ⟨0, 65536, 30000, false⟩ rfl rfl rfl (by decide) (by decide) (by decide)
    exact ⟨h.2.1, h.2.2 (by decide)⟩
  · exact snapshot_range.2.1 ⟨0, 100, 40, false⟩ okController 150 (by decide)
  · exact snapshot_range.2.2 ⟨0, 100, 40, false⟩ okController true (by decide) (by decide)

/-! ## The click handler -/

/-- Without overflow the step is the quotient `(Max - Min) / 100`, raised to 1 when it is 0. -/
theorem volStep_eq (v : Volume) (h : v.Min ≤ v.Max) (hfit : IsInt64 (v.Max - v.Min)) :
    volStep v = if (v.Max - v.Min) / 100 = 0 then 1 else (v.Max - v.Min) / 100 := by
  have hsub : sub64 v.Max v.Min = v.Max - v.Min := wrap64_of_isInt64 _ hfit
  have hnn : 0 ≤ v.Max - v.Min := by omega
  have hdiv : div64 (v.Max - v.Min) 100 = (v.Max - v.Min) / 100 := by
    unfold div64
    rw [Int.tdiv_eq_ediv hnn (by norm_num)]
    apply wrap64_of_isInt64
    unfold IsInt64 at hfit ⊢
    constructor <;> omega
  unfold volStep
  simp only [hsub, hdiv]

/-- C6: the handler does nothing when the limiter grants no token; with a token, a left click is
`SetMuted(!v.Mute)` (which always sends one `setMuted` command), a scroll-up is
`SetVolume(v.Vol + volStep)`, a scroll-down is `SetVolume(v.Vol - volStep)` and any other button
has no effect, where `volStep` is `(Max - Min) / 100` in `int64` arithmetic, replaced by 1 when
it is 0; when `Max - Min` fits `int64` this is the mathematical quotient `(Max - Min) / 100`,
raised to 1 when it is 0. -/
theorem defaultClickHandler_policy (v : Volume) (c : controller) (allow : Bool) (e : ClickEvent)
    (h : v.Min ≤ v.Max) :
    (allow = false → defaultClickHandler v c allow e = []) ∧
    (allow = true → e.Button = Button.ButtonLeft →
      defaultClickHandler v c allow e = v.SetMuted c (!v.Mute) ∧
      commands (defaultClickHandler v c allow e) = [Effect.setMuted (!v.Mute)]) ∧
    (allow = true → e.Button = Button.ScrollUp →
      defaultClickHandler v c allow e = v.SetVolume c (add64 v.Vol (volStep v))) ∧
    (allow = true → e.Button = Button.ScrollDown →
      defaultClickHandler v c allow e = v.SetVolume c (sub64 v.Vol (volStep v))) ∧
    (allow = true → e.Button = Button.other → defaultClickHandler v c allow e = []) ∧
    (volStep v = if div64 (sub64 v.Max v.Min) 100 = 0 then 1 else div64 (sub64 v.Max v.Min) 100) ∧
    (IsInt64 (v.Max - v.Min) →
      volStep v = if (v.Max - v.Min) / 100 = 0 then 1 else (v.Max - v.Min) / 100) := by
  refine ⟨?_, ?_, ?_, ?_, ?_, rfl, volStep_eq v h⟩
  · intro ha
    simp [defaultClickHandler, ha]
  · intro ha hb
    have hm : defaultClickHandler v c allow e = v.SetMuted c (!v.Mute) := by
      simp [defaultClickHandler, ha, hb]
    refine ⟨hm, ?_⟩
    rw [hm]
    have hne : ¬ v.Mute = !v.Mute := by cases v.Mute <;> decide
    unfold Volume.SetMuted
    simp only [hne, if_false]
    cases hs : c.setMuted (!v.Mute) <;> simp [commands]
  · intro ha hb
    simp [defaultClickHandler, ha, hb]
  · intro ha hb
    simp [defaultClickHandler, ha, hb]
  · intro ha hb
    simp [defaultClickHandler, ha, hb]

/-- The handler of `{Min 0, Max 65536, Vol 32768}`: the step is 655; a scroll-up with a token
sends `setVolume(33423)`, a scroll-down `setVolume(32113)`, a left click `setMuted(true)`. -/
theorem defaultClickHandler_policy_witness :
    volStep ⟨0, 65536, 32768, false⟩ = 655 ∧
    commands (defaultClickHandler ⟨0, 65536, 32768, false⟩ okController true ⟨Button.ScrollUp⟩)
      = [Effect.setVolume 33423] ∧
    commands (defaultClickHandler ⟨0, 65536, 32768, false⟩ okController true ⟨Button.ScrollDown⟩)
      = [Effect.setVolume 32113] ∧
    commands (defaultClickHandler ⟨0, 65536, 32768, false⟩ okController true ⟨Button.ButtonLeft⟩)
      = [Effect.setMuted true] ∧
    defaultClickHandler ⟨0, 65536, 32768, false⟩ okController false ⟨Button.ScrollUp⟩ = [] := by
  have h := defaultClickHandler_policy ⟨0, 65536, 32768, false⟩ okController true
    ⟨Button.ButtonLeft⟩ (by decide)
  have h0 := defaultClickHandler_policy ⟨0, 65536, 32768, false⟩ okController false
    ⟨Button.ScrollUp⟩ (by decide)
  exact ⟨by decide, by decide, by decide, (h.2.1 rfl rfl).2, h0.1 rfl⟩

/-! ## Rate limiting of click bursts -/

theorem allow_eq (lim : Limiter) (now : Nat) :
    lim.Allow now =
      if lim.interval ≤ min (lim.burst * lim.interval) (lim.credit + (now - lim.last)) then
        (true, { lim with
          credit := min (lim.burst * lim.interval) (lim.credit + (now - lim.last)) - lim.interval,
          last := now })
      else
        (false, { lim with
          credit := min (lim.burst * lim.interval) (lim.credit + (now - lim.last)),
          last := now }) := rfl

theorem allow_interval (lim : Limiter) (now : Nat) : (lim.Allow now).2.interval = lim.interval := by
  rw [allow_eq]
  split_ifs <;> rfl

theorem allow_burst (lim : Limiter) (now : Nat) : (lim.Allow now).2.burst = lim.burst := by
  rw [allow_eq]
  split_ifs <;> rfl

theorem allow_last (lim : Limiter) (now : Nat) : (lim.Allow now).2.last = now := by
  rw [allow_eq]
  split_ifs <;> rfl

/-- A grant empties a bucket of capacity 1. -/
theorem refillSince_of_allow (lim : Limiter) (now : Nat) (hB : lim.burst = 1)
    (h : (lim.Allow now).1 = true) : RefillSince now (lim.Allow now).2 := by
  rw [allow_eq] at h ⊢
  unfold RefillSince
  split_ifs at h ⊢ with hc
  · simp only [hB, one_mul] at hc ⊢
    refine ⟨trivial, le_refl _, ?_⟩
    have : min lim.interval (lim.credit + (now - lim.last)) ≤ lim.interval := min_le_left _ _
    omega

/-- Less than one interval after a grant, every call is refused. -/
theorem admitted_after_grant (ta : Nat) (ts : List Nat) :
    ∀ lim : Limiter, RefillSince ta lim → ts.Pairwise (· ≤ ·) →
      (∀ t ∈ ts, lim.last ≤ t ∧ t < ta + lim.interval) →
      admitted lim ts = List.replicate ts.length false := by
  induction ts with
  | nil => intro _ _ _ _; rfl
  | cons t rest ih =>
    intro lim hJ hs hw
    obtain ⟨hB, hta, hcr⟩ := hJ
    obtain ⟨hlast, hlt⟩ := hw t (List.mem_cons_self _ _)
    have hs' := List.pairwise_cons.mp hs
    have hmin : min (lim.burst * lim.interval) (lim.credit + (t - lim.last))
        ≤ lim.credit + (t - lim.last) := min_le_right _ _
    have hcredit : min (lim.burst * lim.interval) (lim.credit + (t - lim.last)) + ta ≤ t := by
      omega
    have hdeny : ¬ lim.interval ≤ min (lim.burst * lim.interval) (lim.credit + (t - lim.last)) := by
      omega
    have hA : lim.Allow t = (false, { lim with
        credit := min (lim.burst * lim.interval) (lim.credit + (t - lim.last)), last := t }) := by
      rw [allow_eq]
      simp only [hdeny, if_false]
    simp only [admitted, hA, List.length_cons, List.replicate_succ]
    congr 1
    apply ih
    · exact ⟨hB, by show ta ≤ t; omega, hcredit⟩
    · exact hs'.2
    · intro t' ht'
      have h1 := hs'.1 t' ht'
      have h2 := (hw t' (List.mem_cons_of_mem _ ht')).2
      exact ⟨h1, h2⟩

/-- Calls at non-decreasing times that all fall less than one interval after the first: at most
one is granted, and when the first is granted all the others are refused. -/
theorem admitted_window (ts : List Nat) :
    ∀ lim : Limiter, lim.burst = 1 → ts.Pairwise (· ≤ ·) →
      (∀ t ∈ ts, ∀ u ∈ ts, u < t + lim.interval) →
      (admitted lim ts).count true ≤ 1 ∧
      (∀ t0 rest, ts = t0 :: rest → (lim.Allow t0).1 = true →
        admitted lim ts = true :: List.replicate rest.length false) := by
  induction ts with
  | nil => intro _ _ _ _; exact ⟨by simp [admitted], by intro _ _ h; cases h⟩
  | cons t rest ih =>
    intro lim hB hs hw
    have hs' := List.pairwise_cons.mp hs
    have hgrant : (lim.Allow t).1 = true →
        admitted lim (t :: rest) = true :: List.replicate rest.length false := by
      intro ha
      have hJ := refillSince_of_allow lim t hB ha
      have hrest := admitted_after_grant t rest (lim.Allow t).2 hJ hs'.2 (by
        intro u hu
        rw [allow_last, allow_interval]
        exact ⟨hs'.1 u hu, hw t (List.mem_cons_self _ _) u (List.mem_cons_of_mem _ hu)⟩)
      simp only [admitted, ha, hrest]
    constructor
    · cases ha : (lim.Allow t).1 with
      | true =>
        rw [hgrant ha]
        simp [List.count_replicate]
      | false =>
        have hrec := (ih (lim.Allow t).2 (by rw [allow_burst]; exact hB) hs'.2 (by
          intro a ha' u hu
          rw [allow_interval]
          exact hw a (List.mem_cons_of_mem _ ha') u (List.mem_cons_of_mem _ hu))).1
        simp only [admitted, ha]
        simpa using hrec
    · intro t0 rest' heq ha
      injection heq with h1 h2
      subst h1; subst h2
      exact hgrant ha

/-- The effects of a burst of scroll-up events are those of the handler under the decisions of
the limiter. -/
theorem deliver_scrollUp (v : Volume) (c : controller) (ts : List Nat) :
    ∀ lim : Limiter,
      deliver v c lim (ts.map fun t => (t, (⟨Button.ScrollUp⟩ : ClickEvent)))
        = (admitted lim ts).map fun a => defaultClickHandler v c a ⟨Button.ScrollUp⟩ := by
  induction ts with
  | nil => intro _; rfl
  | cons t rest ih => intro lim; simp [deliver, admitted, ih]

/-- A call of `SetVolume` sends at most one command. -/
theorem commands_SetVolume_le (v : Volume) (c : controller) (t : Int) :
    (commands (v.SetVolume c t)).length ≤ 1 := by
  have key : ∀ x : Int,
      (commands (if x = v.Vol then [] else
        match c.setVolume x with
        | some err => [Effect.setVolume x, Effect.log err]
        | none => [Effect.setVolume x, Effect.update { v with Vol := x }])).length ≤ 1 := by
    intro x
    split_ifs
    · simp [commands]
    · cases hs : c.setVolume x <;> simp [commands]
  exact key _

/-- The number of commands sent by a burst is at most the number of granted events. -/
theorem commands_le_count (v : Volume) (c : controller) (as : List Bool) :
    ((as.map fun a => defaultClickHandler v c a ⟨Button.ScrollUp⟩).map
      fun es => (commands es).length).sum ≤ as.count true := by
  induction as with
  | nil => simp
  | cons a rest ih =>
    cases a with
    | false =>
      simp only [List.map_cons, List.sum_cons]
      have : defaultClickHandler v c false ⟨Button.ScrollUp⟩ = [] := by
        simp [defaultClickHandler]
      simp only [this, commands, List.filter_nil, List.length_nil, zero_add]
      simpa using ih
    | true =>
      simp only [List.map_cons, List.sum_cons, List.count_cons_self]
      have h1 : defaultClickHandler v c true ⟨Button.ScrollUp⟩
          = v.SetVolume c (add64 v.Vol (volStep v)) := by
        simp [defaultClickHandler]
      have h2 := commands_SetVolume_le v c (add64 v.Vol (volStep v))
      rw [h1]
      omega

/-- C7 (amended): scroll-up events delivered to a click handler at non-decreasing times within a
5 ms window, with a bucket of capacity 1 and refill interval 20 ms, send at most one `SetVolume`
command in total; when the first event is granted a token, its effects are those of
`SetVolume(v.Vol + volStep)` and every other event is dropped. -/
theorem scroll_burst (v : Volume) (c : controller) (lim : Limiter) (t0 : Nat) (rest : List Nat)
    (hI : lim.interval = 20 * millisecond) (hB : lim.burst = 1)
    (hs : (t0 :: rest).Pairwise (· ≤ ·)) (hw : ∀ t ∈ rest, t ≤ t0 + 5 * millisecond) :
    ((deliver v c lim ((t0 :: rest).map fun t => (t, (⟨Button.ScrollUp⟩ : ClickEvent)))).map
      fun es => (commands es).length).sum ≤ 1 ∧
    ((lim.Allow t0).1 = true →
      deliver v c lim ((t0 :: rest).map fun t => (t, (⟨Button.ScrollUp⟩ : ClickEvent)))
        = v.SetVolume c (add64 v.Vol (volStep v)) :: List.replicate rest.length []) := by
  have hs' := List.pairwise_cons.mp hs
  have hwin : ∀ t ∈ t0 :: rest, ∀ u ∈ t0 :: rest, u < t + lim.interval := by
    intro t ht u hu
    rw [hI]
    have h1 : t0 ≤ t := by
      rcases List.mem_cons.mp ht with h | h
      · omega
      · exact hs'.1 t h
    have h2 : u ≤ t0 + 5 * millisecond := by
      rcases List.mem_cons.mp hu with h | h
      · omega
      · exact hw u h
    unfold millisecond at h2 ⊢
    omega
  have hadm := admitted_window (t0 :: rest) lim hB hs hwin
  rw [deliver_scrollUp]
  constructor
  · exact le_trans (commands_le_count v c _) hadm.1
  · intro ha
    rw [hadm.2 t0 rest rfl ha]
    simp [defaultClickHandler]

/-- Three scroll-up events within 2 ms on `{Min 0, Max 100, Vol 40}` with a full bucket: the first
sends `setVolume(41)`, the other two are dropped. -/
theorem scroll_burst_witness :
    deliver ⟨0, 100, 40, false⟩ okController rateLimiter
      [(0, ⟨Button.ScrollUp⟩), (millisecond, ⟨Button.ScrollUp⟩), (2 * millisecond, ⟨Button.ScrollUp⟩)]
      = [[Effect.setVolume 41, Effect.update ⟨0, 100, 41, false⟩], [], []] := by
  have h := (scroll_burst ⟨0, 100, 40, false⟩ okController rateLimiter 0
    [millisecond, 2 * millisecond] rfl rfl (by decide) (by decide)).2 (by decide)
  simpa using h

/-- C7 as stated fails: two scroll-up events 1 ms apart on a snapshot already at its maximum send
no command at all, whatever the limiter grants; and on a snapshot in mid-range they send none
when the token was taken 1 ms before the first of them. -/
theorem scroll_burst_no_command :
    (∀ lim : Limiter, deliver ⟨0, 100, 100, false⟩ okController lim
      [(0, ⟨Button.ScrollUp⟩), (millisecond, ⟨Button.ScrollUp⟩)] = [[], []]) ∧
    (rateLimiter.Allow 0).1 = true ∧
    deliver ⟨0, 100, 40, false⟩ okController (rateLimiter.Allow 0).2
      [(millisecond, ⟨Button.ScrollUp⟩), (2 * millisecond, ⟨Button.ScrollUp⟩)] = [[], []] := by
  refine ⟨?_, by decide, by decide⟩
  intro lim
  have h : ∀ allow : Bool,
      defaultClickHandler ⟨0, 100, 100, false⟩ okController allow ⟨Button.ScrollUp⟩ = [] := by
    decide
  simp only [deliver, h]

/-! ## The worker: fatal errors -/

theorem quiet_nil : Quiet [] := by intro e he; cases he

theorem quiet_append {a b : List Event} (ha : Quiet a) (hb : Quiet b) : Quiet (a ++ b) := by
  intro e he
  rcases List.mem_append.mp he with h | h
  · exact ha e h
  · exact hb e h

theorem quiet_singleton {e : Event} (h1 : e.isFailure = false) (h2 : e.isError = false) :
    Quiet [e] := by
  intro x hx
  rw [List.mem_singleton] at hx
  subst hx
  exact ⟨h1, h2⟩

theorem closing_nil : Closing [] := by intro e he; cases he

theorem closing_append_close {c : List Event} (addr : String) (hc : Closing c) :
    Closing (c ++ [Event.close addr]) := by
  intro e he
  rcases List.mem_append.mp he with h | h
  · exact hc e h
  · rw [List.mem_singleton] at h; subst h; rfl

theorem fails_prepend {e : Error} {a b : List Event} (ha : Quiet a) (hb : Fails e b) :
    Fails e (a ++ b) := by
  obtain ⟨pre, req, cl, rfl, hq, hc⟩ := hb
  exact ⟨a ++ pre, req, cl, by simp, quiet_append ha hq, hc⟩

theorem taskOk_pure {α : Type} (a : α) : TaskOk (pure a : Task α) := by
  intro s
  exact ⟨[], by simp [pure, Task.pure], quiet_nil⟩

theorem taskOk_panic {α : Type} (msg : String) : TaskOk (Task.panic msg : Task α) := by
  intro s
  exact ⟨[], by simp [Task.panic], quiet_nil⟩

theorem taskOk_request {α : Type} (req : Request) (answer : Nat → Except Error α) :
    TaskOk (request req answer) := by
  intro s
  unfold request
  cases h : answer s.clock with
  | ok a => exact ⟨[Event.call req none], rfl, quiet_singleton rfl rfl⟩
  | error e => exact ⟨[Event.call req (some e)], rfl, [], req, [], rfl, quiet_nil, closing_nil⟩

theorem taskOk_bind {α β : Type} (t : Task α) (f : α → Task β) (ht : TaskOk t)
    (hf : ∀ a, TaskOk (f a)) : TaskOk (t >>= f) := by
  intro s
  obtain ⟨evs1, hlog1, hshape1⟩ := ht s
  show ∃ evs, (Task.bind t f s).2.log = s.log ++ evs ∧ Shape (Task.bind t f s).1 evs
  unfold Task.bind
  rcases hts : t s with ⟨r, s1⟩
  rw [hts] at hlog1 hshape1
  cases r with
  | ok a =>
    obtain ⟨evs2, hlog2, hshape2⟩ := hf a s1
    refine ⟨evs1 ++ evs2, ?_, ?_⟩
    · simp only [hlog2]
      simp only at hlog1
      rw [hlog1, List.append_assoc]
    · simp only
      cases hr : (f a s1).1 with
      | ok b => rw [hr] at hshape2; exact quiet_append hshape1 hshape2
      | panic msg => rw [hr] at hshape2; exact quiet_append hshape1 hshape2
      | error e => rw [hr] at hshape2; exact fails_prepend hshape1 hshape2
  | error e => exact ⟨evs1, hlog1, hshape1⟩
  | panic msg => exact ⟨evs1, hlog1, hshape1⟩

theorem taskOk_withClose {α : Type} (addr : String) (t : Task α) (ht : TaskOk t) :
    TaskOk (withClose addr t) := by
  intro s
  obtain ⟨evs, hlog, hshape⟩ := ht s
  unfold withClose
  refine ⟨evs ++ [Event.close addr], ?_, ?_⟩
  · simp only [St.emit, hlog, List.append_assoc]
  · simp only
    cases hr : (t s).1 with
    | ok b => rw [hr] at hshape; exact quiet_append hshape (quiet_singleton rfl rfl)
    | panic msg => rw [hr] at hshape; exact quiet_append hshape (quiet_singleton rfl rfl)
    | error e =>
      rw [hr] at hshape
      obtain ⟨pre, req, cl, rfl, hq, hc⟩ := hshape
      exact ⟨pre, req, cl ++ [Event.close addr], by simp, hq, closing_append_close addr hc⟩

theorem taskOk_dialAndAuth (bus : Bus) (addr : String) : TaskOk (dialAndAuth bus addr) := by
  unfold dialAndAuth
  exact taskOk_bind _ _ (taskOk_request _ _) fun _ =>
    taskOk_bind _ _ (taskOk_request _ _) fun _ => taskOk_pure _

theorem taskOk_openPulseAudio (bus : Bus) : TaskOk (openPulseAudio bus) := by
  unfold openPulseAudio
  split_ifs
  · exact taskOk_dialAndAuth _ _
  · refine taskOk_bind _ _ (taskOk_request _ _) fun _ => taskOk_withClose _ _ ?_
    refine taskOk_bind _ _ (taskOk_request _ _) fun _ =>
      taskOk_bind _ _ (taskOk_request _ _) fun path => ?_
    cases path <;> first | exact taskOk_dialAndAuth _ _ | exact taskOk_panic _

theorem taskOk_listen (bus : Bus) (signal : String) (objects : List ObjectPath) :
    TaskOk (listen bus signal objects) := taskOk_request _ _

theorem taskOk_openSink (bus : Bus) (p : ObjectPath) : TaskOk (openSink bus p) := by
  unfold openSink
  exact taskOk_bind _ _ (taskOk_listen _ _ _) fun _ =>
    taskOk_bind _ _ (taskOk_listen _ _ _) fun _ => taskOk_pure _

theorem taskOk_openSinkByName (bus : Bus) (name : String) : TaskOk (openSinkByName bus name) := by
  unfold openSinkByName
  exact taskOk_bind _ _ (taskOk_request _ _) fun _ => taskOk_openSink _ _

theorem taskOk_openFallbackSink (bus : Bus) : TaskOk (openFallbackSink bus) := by
  unfold openFallbackSink
  refine taskOk_bind _ _ (taskOk_request _ _) fun path => ?_
  cases path <;> first | exact taskOk_openSink _ _ | exact taskOk_panic _

theorem taskOk_getVolume (bus : Bus) (sink : ObjectPath) : TaskOk (getVolume bus sink) := by
  unfold getVolume
  refine taskOk_bind _ _ (taskOk_request _ _) fun max => ?_
  cases max <;> try exact taskOk_panic _
  refine taskOk_bind _ _ (taskOk_request _ _) fun vol => ?_
  cases vol <;> try exact taskOk_panic _
  simp only
  split_ifs
  · exact taskOk_panic _
  · refine taskOk_bind _ _ (taskOk_request _ _) fun mute => ?_
    cases mute <;> first | exact taskOk_pure _ | exact taskOk_panic _

theorem taskOk_resolveSink (m : paModule) (bus : Bus) : TaskOk (resolveSink m bus) := by
  unfold resolveSink
  split_ifs
  · exact taskOk_openSinkByName _ _
  · exact taskOk_bind _ _ (taskOk_openFallbackSink _) fun _ =>
      taskOk_bind _ _ (taskOk_listen _ _ _) fun _ => taskOk_pure _

theorem fatal_prepend {e : Error} {a b : List Event} (ha : Quiet a) (hb : Fatal e b) :
    Fatal e (a ++ b) := by
  obtain ⟨pre, req, c1, c2, rfl, hq, h1, h2⟩ := hb
  exact ⟨a ++ pre, req, c1, c2, by simp, quiet_append ha hq, h1, h2⟩

/-- A run that follows a stretch without failure. -/
theorem runOk_prepend {s0 s1 : St} {evs1 : List Event} {r : Status × St}
    (hlog : s1.log = s0.log ++ evs1) (hq : Quiet evs1) (hr : RunOk s1 r) : RunOk s0 r := by
  obtain ⟨evs2, hlog2, h⟩ := hr
  refine ⟨evs1 ++ evs2, by rw [hlog2, hlog, List.append_assoc], ?_⟩
  rcases h with ⟨hne, hq2⟩ | ⟨heq, e, hf⟩
  · exact Or.inl ⟨hne, quiet_append hq hq2⟩
  · exact Or.inr ⟨heq, e, fatal_prepend hq hf⟩

theorem runOk_orPublishError {α : Type} (t : Task α) (next : α → St → Status × St) (s : St)
    (ht : TaskOk t) (hnext : ∀ a s1, RunOk s1 (next a s1)) :
    RunOk s (orPublishError (t s) next) := by
  obtain ⟨evs, hlog, hshape⟩ := ht s
  rcases hts : t s with ⟨r, s1⟩
  rw [hts] at hlog hshape
  cases r with
  | ok a => exact runOk_prepend hlog hshape (hnext a s1)
  | panic msg =>
    exact ⟨evs, hlog, Or.inl ⟨by simp [orPublishError], hshape⟩⟩
  | error e =>
    obtain ⟨pre, req, cl, rfl, hq, hc⟩ := hshape
    refine ⟨(pre ++ Event.call req (some e) :: cl) ++ [Event.error e], ?_, Or.inr ⟨rfl, e, ?_⟩⟩
    · simp only [orPublishError, St.emit]
      simp only at hlog
      rw [hlog, List.append_assoc]
    · exact ⟨pre, req, cl, [], by simp, hq, hc, closing_nil⟩

theorem runOk_setOrError (t : Task Volume) (next : St → Status × St) (s : St)
    (ht : TaskOk t) (hnext : ∀ s1, RunOk s1 (next s1)) :
    RunOk s (setOrError (t s) next) := by
  unfold setOrError
  refine runOk_orPublishError t _ s ht fun v s1 => ?_
  have hlog : (s1.emit (Event.set v)).log = s1.log ++ [Event.set v] := rfl
  exact runOk_prepend hlog (quiet_singleton rfl rfl) (hnext _)

/-- The body of the loop, seen as a run that either stops or hands over to the next signal. -/
theorem handleSignal_eq (m : paModule) (bus : Bus) (sink : ObjectPath) (signal : Signal)
    (rest : List Signal) (s : St) :
    signalLoop m bus sink (signal :: rest) s =
      if m.sinkName = "" ∧ signal.Path = corePath then
        orPublishError (openFallbackSink bus s) fun sink' s1 =>
          setOrError (getVolume bus sink' s1) fun s2 => signalLoop m bus sink' rest s2
      else
        setOrError (getVolume bus sink s) fun s2 => signalLoop m bus sink rest s2 := by
  simp only [signalLoop, handleSignal, setOrError, orPublishError]
  split_ifs
  · rcases openFallbackSink bus s with ⟨r, s1⟩
    cases r with
    | ok p =>
      simp only
      rcases getVolume bus p s1 with ⟨r2, s2⟩
      cases r2 <;> rfl
    | error e => rfl
    | panic msg => rfl
  · rcases getVolume bus sink s with ⟨r2, s2⟩
    cases r2 <;> rfl

theorem runOk_signalLoop (m : paModule) (bus : Bus) (signals : List Signal) :
    ∀ (sink : ObjectPath) (s : St), RunOk s (signalLoop m bus sink signals s) := by
  induction signals with
  | nil =>
    intro sink s
    exact ⟨[], by simp [signalLoop], Or.inl ⟨by simp [signalLoop], quiet_nil⟩⟩
  | cons signal rest ih =>
    intro sink s
    rw [handleSignal_eq]
    split_ifs
    · exact runOk_orPublishError _ _ s (taskOk_openFallbackSink bus) fun sink' s1 =>
        runOk_setOrError _ _ s1 (taskOk_getVolume bus sink') fun s2 => ih sink' s2
    · exact runOk_setOrError _ _ s (taskOk_getVolume bus sink) fun s2 => ih sink s2

theorem runOk_worker (m : paModule) (bus : Bus) (signals : List Signal) (s : St) :
    RunOk s (worker m bus signals s) := by
  unfold worker
  refine runOk_orPublishError _ _ s (taskOk_openPulseAudio bus) fun conn s1 => ?_
  have hinner : RunOk s1
      (orPublishError (resolveSink m bus s1) fun sink s2 =>
        setOrError (getVolume bus sink s2) fun s3 => signalLoop m bus sink signals s3) :=
    runOk_orPublishError _ _ s1 (taskOk_resolveSink m bus) fun sink s2 =>
      runOk_setOrError _ _ s2 (taskOk_getVolume bus sink) fun s3 =>
        runOk_signalLoop m bus signals sink s3
  rcases hr : (orPublishError (resolveSink m bus s1) fun sink s2 =>
        setOrError (getVolume bus sink s2) fun s3 => signalLoop m bus sink signals s3)
    with ⟨status, s4⟩
  rw [hr] at hinner
  obtain ⟨evs, hlog, h⟩ := hinner
  have hlog' : s4.log = s1.log ++ evs := hlog
  cases status with
  | waiting => exact ⟨evs, hlog, h⟩
  | panicked =>
    refine ⟨evs ++ [Event.close conn], by simp [St.emit, hlog'], ?_⟩
    rcases h with ⟨_, hq⟩ | ⟨heq, _⟩
    · exact Or.inl ⟨by simp, quiet_append hq (quiet_singleton rfl rfl)⟩
    · cases heq
  | returned =>
    refine ⟨evs ++ [Event.close conn], by simp [St.emit, hlog'], ?_⟩
    rcases h with ⟨hne, _⟩ | ⟨_, e, pre, req, c1, c2, rfl, hq, h1, h2⟩
    · exact absurd rfl hne
    · exact Or.inr ⟨rfl, e, pre, req, c1, c2 ++ [Event.close conn], by simp, hq, h1,
        closing_append_close conn h2⟩

theorem foldl_store_closing (c : List Event) (hc : Closing c) :
    ∀ content, c.foldl store content = content := by
  induction c with
  | nil => intro _; rfl
  | cons x rest ih =>
    intro content
    have hx := hc x (List.mem_cons_self _ _)
    have hrest := ih fun e he => hc e (List.mem_cons_of_mem _ he)
    cases x <;> simp_all [store, Event.isClose]

/-- The cell after a fatal run holds the fatal error. -/
theorem cell_fatal (e : Error) (evs : List Event) (h : Fatal e evs) :
    cell evs = some (Except.error e) := by
  obtain ⟨pre, req, c1, c2, rfl, _, _, h2⟩ := h
  unfold cell
  rw [List.foldl_append, List.foldl_cons, List.foldl_append, List.foldl_cons,
    foldl_store_closing c2 h2]
  rfl

/-- The failed request of a fatal run is the only one. -/
theorem fatal_failure_unique (e e' : Error) (req : Request) (evs : List Event)
    (h : Fatal e' evs) (hmem : Event.call req (some e) ∈ evs) :
    e' = e ∧ ∃ pre c1 c2, evs = pre ++ Event.call req (some e) :: (c1 ++ Event.error e :: c2) ∧
      Quiet pre ∧ Closing c1 ∧ Closing c2 := by
  obtain ⟨pre, req', c1, c2, rfl, hq, h1, h2⟩ := h
  have hcases : Event.call req (some e) = Event.call req' (some e') := by
    rcases List.mem_append.mp hmem with h | h
    · have := (hq _ h).1
      simp [Event.isFailure] at this
    · rcases List.mem_cons.mp h with h | h
      · exact h
      · rcases List.mem_append.mp h with h | h
        · have := h1 _ h
          simp [Event.isClose] at this
        · rcases List.mem_cons.mp h with h | h
          · cases h
          · have := h2 _ h
            simp [Event.isClose] at this
  injection hcases with hreq he
  injection he with he
  subst hreq; subst he
  exact ⟨rfl, pre, c1, c2, rfl, hq, h1, h2⟩

/-- Once the loop has stopped, further signals change nothing. -/
theorem signalLoop_append (m : paModule) (bus : Bus) (signals more : List Signal) :
    ∀ (sink : ObjectPath) (s : St), (signalLoop m bus sink signals s).1 ≠ Status.waiting →
      signalLoop m bus sink (signals ++ more) s = signalLoop m bus sink signals s := by
  induction signals with
  | nil => intro sink s h; simp [signalLoop] at h
  | cons signal rest ih =>
    intro sink s h
    simp only [List.cons_append, signalLoop] at h ⊢
    rcases hstep : handleSignal m bus sink signal s with ⟨step, s1⟩
    rw [hstep] at h
    cases step with
    | next sink' => exact ih sink' s1 h
    | stop status => rfl

/-- Once the worker has returned or panicked, further signals change nothing. -/
theorem worker_append (m : paModule) (bus : Bus) (signals more : List Signal) (s : St)
    (h : (worker m bus signals s).1 ≠ Status.waiting) :
    worker m bus (signals ++ more) s = worker m bus signals s := by
  unfold worker at h ⊢
  rcases h1 : openPulseAudio bus s with ⟨r1, s1⟩
  rw [h1] at h
  cases r1 with
  | error e => rfl
  | panic msg => rfl
  | ok conn =>
    simp only [orPublishError] at h ⊢
    rcases h2 : resolveSink m bus s1 with ⟨r2, s2⟩
    rw [h2] at h
    cases r2 with
    | error e => rfl
    | panic msg => rfl
    | ok sink =>
      simp only [setOrError, orPublishError] at h ⊢
      rcases h3 : getVolume bus sink s2 with ⟨r3, s3⟩
      rw [h3] at h
      cases r3 with
      | error e => rfl
      | panic msg => rfl
      | ok v =>
        simp only at h ⊢
        have hloop : (signalLoop m bus sink signals (s3.emit (Event.set v))).1
            ≠ Status.waiting := by
          intro hw
          rcases hl : signalLoop m bus sink signals (s3.emit (Event.set v)) with ⟨st, s4⟩
          rw [hl] at h hw
          simp only at hw
          subst hw
          exact h rfl
        rw [signalLoop_append m bus signals more sink _ hloop]

/-- C8: in every run of the worker (either mode, any signals, any outcome of every request), if
a request fails with the error `e` (a dial, authentication, session-bus, device lookup,
subscription or property read), then the worker returns, its log is a stretch without failure,
that failed request, the publication of `e` into the cell (with only deferred closings in
between), and only closings after it; the cell then holds `e`; and the outcome is the same
whatever signals arrive later. -/
theorem worker_fatal_error (m : paModule) (bus : Bus) (signals : List Signal) (req : Request)
    (e : Error)
    (hfail : Event.call req (some e) ∈ (worker m bus signals St.init).2.log) :
    (worker m bus signals St.init).1 = Status.returned ∧
    (∃ pre c1 c2, (worker m bus signals St.init).2.log
        = pre ++ Event.call req (some e) :: (c1 ++ Event.error e :: c2) ∧
      Quiet pre ∧ Closing c1 ∧ Closing c2) ∧
    cell (worker m bus signals St.init).2.log = some (Except.error e) ∧
    ∀ more, worker m bus (signals ++ more) St.init = worker m bus signals St.init := by
  obtain ⟨evs, hlog, h⟩ := runOk_worker m bus signals St.init
  have hlog' : (worker m bus signals St.init).2.log = evs := by
    rw [hlog]; rfl
  rw [hlog'] at hfail ⊢
  rcases h with ⟨_, hq⟩ | ⟨hret, e', hf⟩
  · have := (hq _ hfail).1
    simp [Event.isFailure] at this
  · obtain ⟨he, hshape⟩ := fatal_failure_unique e e' req evs hf hfail
    subst he
    refine ⟨hret, hshape, cell_fatal e' evs hf, fun more => ?_⟩
    apply worker_append
    rw [hret]
    decide

/-- A run in default-tracking mode in which the `Volume` read after the first signal fails: the
worker returns and the cell holds that error. -/
theorem worker_fatal_error_witness :
    (worker ⟨""⟩ unplugBus [⟨"/org/pulseaudio/core1/sink0"⟩, ⟨corePath⟩] St.init).1
      = Status.returned ∧
    cell (worker ⟨""⟩ unplugBus [⟨"/org/pulseaudio/core1/sink0"⟩, ⟨corePath⟩] St.init).2.log
      = some (Except.error "no such device") := by
  have h := worker_fatal_error ⟨""⟩ unplugBus [⟨"/org/pulseaudio/core1/sink0"⟩, ⟨corePath⟩]
    (Request.getProperty "/org/pulseaudio/core1/sink0" "org.PulseAudio.Core1.Device.Volume")
    "no such device" (by decide)
  exact ⟨h.1, h.2.2.1⟩

/-! ## The worker: which device a snapshot is read from -/

/-- The run of `getVolume` when its three reads succeed: three requests on `sink`, no other. -/
theorem getVolume_run (bus : Bus) (sink : ObjectPath) (s : St) (base : UInt32)
    (channels : List UInt32) (mute : Bool)
    (hbase : bus.getProperty s.clock sink "org.PulseAudio.Core1.Device.BaseVolume"
      = Except.ok (Variant.u32 base))
    (hvol : bus.getProperty (s.clock + 1) sink "org.PulseAudio.Core1.Device.Volume"
      = Except.ok (Variant.u32s channels))
    (hmute : bus.getProperty (s.clock + 2) sink "org.PulseAudio.Core1.Device.Mute"
      = Except.ok (Variant.bool mute))
    (hne : channels ≠ []) :
    getVolume bus sink s = (Res.ok
      { Min := 0, Max := Int.ofNat base.toNat,
        Vol := div64 (totalVol channels) (Int.ofNat channels.length), Mute := mute },
      { clock := s.clock + 3,
        log := s.log ++
          [Event.call (Request.getProperty sink "org.PulseAudio.Core1.Device.BaseVolume") none,
           Event.call (Request.getProperty sink "org.PulseAudio.Core1.Device.Volume") none,
           Event.call (Request.getProperty sink "org.PulseAudio.Core1.Device.Mute") none] }) := by
  have hlen : ¬ channels.length = 0 := fun h => hne (List.length_eq_zero.mp h)
  simp [getVolume, bind, Task.bind, request, hbase, hvol, hmute, hlen, pure, Task.pure]

/-- The run of `openFallbackSink` when the lookup and both subscriptions succeed. -/
theorem openFallbackSink_run (bus : Bus) (s : St) (p : ObjectPath)
    (hpath : bus.getProperty s.clock corePath "org.PulseAudio.Core1.FallbackSink"
      = Except.ok (Variant.path p))
    (hl1 : bus.listenForSignal (s.clock + 1) "org.PulseAudio.Core1.Device.VolumeUpdated" [p]
      = Except.ok ())
    (hl2 : bus.listenForSignal (s.clock + 2) "org.PulseAudio.Core1.Device.MuteUpdated" [p]
      = Except.ok ()) :
    openFallbackSink bus s = (Res.ok p,
      { clock := s.clock + 3,
        log := s.log ++
          [Event.call (Request.getProperty corePath "org.PulseAudio.Core1.FallbackSink") none,
           Event.call (Request.listenForSignal "org.PulseAudio.Core1.Device.VolumeUpdated" [p])
             none,
           Event.call (Request.listenForSignal "org.PulseAudio.Core1.Device.MuteUpdated" [p])
             none] }) := by
  have e1 : "org.PulseAudio.Core1." ++ "Device.VolumeUpdated"
      = "org.PulseAudio.Core1.Device.VolumeUpdated" := by decide
  have e2 : "org.PulseAudio.Core1." ++ "Device.MuteUpdated"
      = "org.PulseAudio.Core1.Device.MuteUpdated" := by decide
  simp [openFallbackSink, openSink, listen, bind, Task.bind, request, hpath, hl1, hl2, e1, e2,
    pure, Task.pure]

/-- C9: in default-tracking mode a signal whose path is the core object's path makes the worker
look the fallback sink up again (and subscribe to it) before reading: when these requests and
the three reads succeed, the reads are sent to the freshly resolved sink `p`, the snapshot
published is built from their answers, and `p` is the sink held from then on.  In named mode,
and for a signal with any other path, the three reads are sent to the sink already held, which
stays the sink held. -/
theorem handleSignal_source (m : paModule) (bus : Bus) (sink : ObjectPath) (signal : Signal)
    (s : St) :
    (m.sinkName = "" → signal.Path = corePath →
      ∀ (p : ObjectPath) (base : UInt32) (channels : List UInt32) (mute : Bool),
      bus.getProperty s.clock corePath "org.PulseAudio.Core1.FallbackSink"
        = Except.ok (Variant.path p) →
      bus.listenForSignal (s.clock + 1) "org.PulseAudio.Core1.Device.VolumeUpdated" [p]
        = Except.ok () →
      bus.listenForSignal (s.clock + 2) "org.PulseAudio.Core1.Device.MuteUpdated" [p]
        = Except.ok () →
      bus.getProperty (s.clock + 3) p "org.PulseAudio.Core1.Device.BaseVolume"
        = Except.ok (Variant.u32 base) →
      bus.getProperty (s.clock + 4) p "org.PulseAudio.Core1.Device.Volume"
        = Except.ok (Variant.u32s channels) →
      bus.getProperty (s.clock + 5) p "org.PulseAudio.Core1.Device.Mute"
        = Except.ok (Variant.bool mute) →
      channels ≠ [] →
      handleSignal m bus sink signal s = (Step.next p,
        { clock := s.clock + 6,
          log := s.log ++
            [Event.call (Request.getProperty corePath "org.PulseAudio.Core1.FallbackSink") none,
             Event.call (Request.listenForSignal "org.PulseAudio.Core1.Device.VolumeUpdated" [p])
               none,
             Event.call (Request.listenForSignal "org.PulseAudio.Core1.Device.MuteUpdated" [p])
               none,
             Event.call (Request.getProperty p "org.PulseAudio.Core1.Device.BaseVolume") none,
             Event.call (Request.getProperty p "org.PulseAudio.Core1.Device.Volume") none,
             Event.call (Request.getProperty p "org.PulseAudio.Core1.Device.Mute") none,
             Event.set { Min := 0, Max := Int.ofNat base.toNat,
                         Vol := div64 (totalVol channels) (Int.ofNat channels.length),
                         Mute := mute }] })) ∧
    (¬ (m.sinkName = "" ∧ signal.Path = corePath) →
      ∀ (base : UInt32) (channels : List UInt32) (mute : Bool),
      bus.getProperty s.clock sink "org.PulseAudio.Core1.Device.BaseVolume"
        = Except.ok (Variant.u32 base) →
      bus.getProperty (s.clock + 1) sink "org.PulseAudio.Core1.Device.Volume"
        = Except.ok (Variant.u32s channels) →
      bus.getProperty (s.clock + 2) sink "org.PulseAudio.Core1.Device.Mute"
        = Except.ok (Variant.bool mute) →
      channels ≠ [] →
      handleSignal m bus sink signal s = (Step.next sink,
        { clock := s.clock + 3,
          log := s.log ++
            [Event.call (Request.getProperty sink "org.PulseAudio.Core1.Device.BaseVolume") none,
             Event.call (Request.getProperty sink "org.PulseAudio.Core1.Device.Volume") none,
             Event.call (Request.getProperty sink "org.PulseAudio.Core1.Device.Mute") none,
             Event.set { Min := 0, Max := Int.ofNat base.toNat,
                         Vol := div64 (totalVol channels) (Int.ofNat channels.length),
                         Mute := mute }] })) := by
  constructor
  · intro hm hp p base channels mute hpath hl1 hl2 hbase hvol hmute hne
    have h1 := openFallbackSink_run bus s p hpath hl1 hl2
    have h2 := getVolume_run bus p
      { clock := s.clock + 3,
        log := s.log ++
          [Event.call (Request.getProperty corePath "org.PulseAudio.Core1.FallbackSink") none,
           Event.call (Request.listenForSignal "org.PulseAudio.Core1.Device.VolumeUpdated" [p])
             none,
           Event.call (Request.listenForSignal "org.PulseAudio.Core1.Device.MuteUpdated" [p])
             none] }
      base channels mute hbase hvol hmute hne
    unfold handleSignal
    rw [if_pos ⟨hm, hp⟩, h1]
    simp only
    rw [h2]
    simp [St.emit]
  · intro hnot base channels mute hbase hvol hmute hne
    have h2 := getVolume_run bus sink s base channels mute hbase hvol hmute hne
    unfold handleSignal
    rw [if_neg hnot, h2]
    simp [St.emit]

/-- On a server with two sinks whose fallback is `sink1`, a worker holding `sink0`: in
default-tracking mode a signal from the core object publishes the values of `sink1`; in named
mode the same signal publishes the values of `sink0`. -/
theorem handleSignal_source_witness :
    cell (handleSignal ⟨""⟩ twoSinkBus "/org/pulseaudio/core1/sink0" ⟨corePath⟩ St.init).2.log
      = some (Except.ok { Min := 0, Max := 65536, Vol := 50000, Mute := true }) ∧
    cell (handleSignal ⟨"speakers"⟩ twoSinkBus "/org/pulseaudio/core1/sink0" ⟨corePath⟩
      St.init).2.log
      = some (Except.ok { Min := 0, Max := 65536, Vol := 30000, Mute := false }) := by
  have h := handleSignal_source ⟨""⟩ twoSinkBus "/org/pulseaudio/core1/sink0" ⟨corePath⟩ St.init
  have h' := handleSignal_source ⟨"speakers"⟩ twoSinkBus "/org/pulseaudio/core1/sink0"
    ⟨corePath⟩ St.init
  constructor
  · rw [h.1 rfl rfl "/org/pulseaudio/core1/sink1" 65536 [50000] true rfl rfl rfl rfl rfl rfl
      (by decide)]
    rfl
  · rw [h'.2 (by decide) 65536 [20000, 40000] false rfl rfl rfl (by decide)]
    rfl

/-! ## Titles of the media widget -/

/-- C10 fails on the code: with an artist of fourteen three-byte runes (42 bytes, returned
unchanged by `truncate(m.Artist, 20)`) and the title `a`, the second call is
`truncate(m.Title, -2)`: the title has more than -2 runes and the bound `l-1 = -3` is negative,
so that the slice expression panics. -/
theorem spotifyControls_truncate_out_of_range :
    artist14.length = 14 ∧ byteLen artist14 = 42 ∧
    truncate artist14 20 = some artist14 ∧
    ¬ ((['a'].length : Int) ≤ 40 - (byteLen artist14 : Int)) ∧
    ¬ ((1 : Int) ≤ 40 - (byteLen artist14 : Int)) ∧
    truncate ['a'] (40 - (byteLen artist14 : Int)) = none ∧
    spotifyControlsText artist14 ['a'] = none := by
  refine ⟨by decide, by decide, by decide, by decide, by decide, by decide, by decide⟩

/-! ## Floating point: `Frac` and `Pct` -/

/-- Rounding to the nearest integer moves a value by one half at most. -/
theorem roundEven_abs (x : ℚ) : |(roundEven x : ℚ) - x| ≤ 1 / 2 := by
  have h1 : (⌊x⌋ : ℚ) ≤ x := Int.floor_le x
  have h2 : x < ⌊x⌋ + 1 := Int.lt_floor_add_one x
  unfold roundEven
  rw [abs_le]
  split_ifs with ha hb hc
  · constructor <;> linarith
  · push_cast; constructor <;> linarith
  · constructor <;> linarith
  · push_cast; constructor <;> linarith

theorem roundEven_nonneg (x : ℚ) (hx : 0 ≤ x) : 0 ≤ roundEven x := by
  have h0 : 0 ≤ ⌊x⌋ := Int.floor_nonneg.mpr hx
  unfold roundEven
  split_ifs <;> omega

/-- An integer is its own rounding. -/
theorem roundEven_intCast (z : ℤ) : roundEven (z : ℚ) = z := by
  unfold roundEven
  simp

/-- Half a unit in the last place is a relative error of `2 ^ (-53)` at most for normal values,
and `2 ^ (-1075)` for subnormal ones. -/
theorem half_ulp_le (q : ℚ) (hq : 0 < q) :
    (2 : ℚ) ^ ulpExp q / 2 ≤ q / 2 ^ (53 : ℕ) + 1 / 2 ^ (1075 : ℕ) := by
  have hlog : (2 : ℚ) ^ Int.log 2 q ≤ q := by
    have := Int.zpow_log_le_self (R := ℚ) (b := 2) (by norm_num) hq
    simpa using this
  have hqpos : 0 ≤ q / 2 ^ (53 : ℕ) := by positivity
  have hepos : (0 : ℚ) ≤ 1 / 2 ^ (1075 : ℕ) := by positivity
  unfold ulpExp
  rw [abs_of_pos hq]
  rcases le_total (Int.log 2 q) (-1022) with h | h
  · rw [max_eq_right h]
    have : (2 : ℚ) ^ ((-1022 : ℤ) - 52) / 2 = 1 / 2 ^ (1075 : ℕ) := by
      rw [show ((-1022 : ℤ) - 52) = -((1074 : ℕ) : ℤ) by norm_num, zpow_neg, zpow_natCast,
        inv_eq_one_div, div_div, ← pow_succ]
    rw [this]
    linarith
  · rw [max_eq_left h]
    have : (2 : ℚ) ^ (Int.log 2 q - 52) / 2 = 2 ^ Int.log 2 q / 2 ^ (53 : ℕ) := by
      rw [zpow_sub₀ (by norm_num : (2 : ℚ) ≠ 0), show ((52 : ℤ)) = ((52 : ℕ) : ℤ) by norm_num,
        zpow_natCast, show (2 : ℚ) ^ (53 : ℕ) = 2 ^ (52 : ℕ) * 2 from pow_succ 2 52, div_div]
    rw [this]
    have : (2 : ℚ) ^ Int.log 2 q / 2 ^ (53 : ℕ) ≤ q / 2 ^ (53 : ℕ) :=
      div_le_div_of_nonneg_right hlog (by positivity)
    linarith

/-- The rounding error of one operation: a non-negative exact result of no more than `2 ^ 1023`
is rounded to a finite, non-negative value, with a relative error of `2 ^ (-53)` at most (up to
the granularity `2 ^ (-1075)` of the subnormal values). -/
theorem round64_err (q : ℚ) (h0 : 0 ≤ q) (hmax : q ≤ 2 ^ (1023 : ℕ)) :
    ∃ r : ℚ, round64 q = some r ∧ 0 ≤ r ∧
      |r - q| ≤ q / 2 ^ (53 : ℕ) + 1 / 2 ^ (1075 : ℕ) := by
  rcases eq_or_lt_of_le h0 with h | hpos
  · refine ⟨0, ?_, le_refl 0, ?_⟩
    · unfold round64; rw [if_pos h.symm]
    · rw [← h]; norm_num
  · have hne : q ≠ 0 := ne_of_gt hpos
    have hpow : (0 : ℚ) < 2 ^ ulpExp q := zpow_pos (by norm_num) _
    have hround := roundEven_abs (q / 2 ^ ulpExp q)
    have herr : |(roundEven (q / 2 ^ ulpExp q) : ℚ) * 2 ^ ulpExp q - q| ≤ 2 ^ ulpExp q / 2 := by
      have heq : (roundEven (q / 2 ^ ulpExp q) : ℚ) * 2 ^ ulpExp q - q
          = ((roundEven (q / 2 ^ ulpExp q) : ℚ) - q / 2 ^ ulpExp q) * 2 ^ ulpExp q := by
        field_simp
      rw [heq, abs_mul, abs_of_pos hpow]
      calc |(roundEven (q / 2 ^ ulpExp q) : ℚ) - q / 2 ^ ulpExp q| * 2 ^ ulpExp q
          ≤ 1 / 2 * 2 ^ ulpExp q := mul_le_mul_of_nonneg_right hround (le_of_lt hpow)
        _ = 2 ^ ulpExp q / 2 := by ring
    have hbound := le_trans herr (half_ulp_le q hpos)
    have hnn : (0 : ℚ) ≤ (roundEven (q / 2 ^ ulpExp q) : ℚ) * 2 ^ ulpExp q := by
      have : 0 ≤ roundEven (q / 2 ^ ulpExp q) :=
        roundEven_nonneg _ (div_nonneg h0 (le_of_lt hpow))
      have : (0 : ℚ) ≤ (roundEven (q / 2 ^ ulpExp q) : ℚ) := by exact_mod_cast this
      exact mul_nonneg this (le_of_lt hpow)
    refine ⟨(roundEven (q / 2 ^ ulpExp q) : ℚ) * 2 ^ ulpExp q, ?_, hnn, hbound⟩
    unfold round64
    rw [if_neg hne]
    simp only
    rw [if_pos]
    rw [abs_of_nonneg hnn]
    have h1 := (abs_le.mp hbound).2
    have h2 : q / 2 ^ (53 : ℕ) ≤ 2 ^ (1023 : ℕ) / 2 ^ (53 : ℕ) :=
      div_le_div_of_nonneg_right hmax (by positivity)
    have h3 : (2 : ℚ) ^ (1023 : ℕ) + 2 ^ (1023 : ℕ) / 2 ^ (53 : ℕ) + 1 / 2 ^ (1075 : ℕ)
        < 2 ^ (1024 : ℕ) := by norm_num
    linarith

/-- The rounding error of one operation on a result of no more than 201: a relative error of
`2 ^ (-53)`, up to `2 ^ (-100)`. -/
theorem round64_small (q : ℚ) (h0 : 0 ≤ q) (hmax : q ≤ 201) :
    ∃ r : ℚ, round64 q = some r ∧ 0 ≤ r ∧ |r - q| ≤ q / 2 ^ (53 : ℕ) + 1 / 2 ^ (100 : ℕ) := by
  obtain ⟨r, hr, hnn, herr⟩ := round64_err q h0 (le_trans hmax (by norm_num))
  refine ⟨r, hr, hnn, le_trans herr ?_⟩
  have h2 : (1 : ℚ) / 2 ^ (1075 : ℕ) ≤ 1 / 2 ^ (100 : ℕ) := by norm_num
  linarith

/-- The value converted to `int` by `Pct`, for an exact fraction `q0` between 0 and 1: it is
finite, non-negative and within `302 * 2 ^ (-53)` of `100 * q0 + 1/2`, whether the product and
the sum are rounded separately (`x3`) or fused (`y3`). -/
theorem pct_error (q0 : ℚ) (h0 : 0 ≤ q0) (h1 : q0 ≤ 1) :
    ∃ x1 x2 x3 y3 : ℚ,
      round64 q0 = some x1 ∧ round64 (x1 * 100) = some x2 ∧
      round64 (x2 + 1 / 2) = some x3 ∧ round64 (x1 * 100 + 1 / 2) = some y3 ∧
      0 ≤ x3 ∧ 0 ≤ y3 ∧
      |x3 - (100 * q0 + 1 / 2)| ≤ 302 / 2 ^ (53 : ℕ) ∧
      |y3 - (100 * q0 + 1 / 2)| ≤ 302 / 2 ^ (53 : ℕ) := by
  have hu : (1 : ℚ) / 2 ^ (53 : ℕ) ≤ 1 / 100000 := by norm_num
  have hv : (1 : ℚ) / 2 ^ (100 : ℕ) ≤ 1 / 2 ^ (53 : ℕ) / 100000 := by norm_num
  have hupos : (0 : ℚ) < 1 / 2 ^ (53 : ℕ) := by norm_num
  obtain ⟨x1, hx1, hx1nn, hx1e⟩ := round64_small q0 h0 (by linarith)
  have hx1e' := abs_le.mp hx1e
  have hq0u : q0 / 2 ^ (53 : ℕ) ≤ 1 / 2 ^ (53 : ℕ) :=
    div_le_div_of_nonneg_right h1 (by norm_num)
  have hx1le : x1 ≤ 1 + 1 / 10000 := by linarith
  obtain ⟨x2, hx2, hx2nn, hx2e⟩ := round64_small (x1 * 100) (by linarith) (by linarith)
  have hx2e' := abs_le.mp hx2e
  have hx1u : x1 * 100 / 2 ^ (53 : ℕ) ≤ (100 + 1 / 100) / 2 ^ (53 : ℕ) :=
    div_le_div_of_nonneg_right (by linarith) (by norm_num)
  have hx2le : x2 ≤ 100 + 1 / 10 := by linarith
  obtain ⟨x3, hx3, hx3nn, hx3e⟩ := round64_small (x2 + 1 / 2) (by linarith) (by linarith)
  have hx3e' := abs_le.mp hx3e
  have hx2u : (x2 + 1 / 2) / 2 ^ (53 : ℕ) ≤ (100 + 1 / 10 + 1 / 2) / 2 ^ (53 : ℕ) :=
    div_le_div_of_nonneg_right (by linarith) (by norm_num)
  obtain ⟨y3, hy3, hy3nn, hy3e⟩ := round64_small (x1 * 100 + 1 / 2) (by linarith) (by linarith)
  have hy3e' := abs_le.mp hy3e
  have hy1u : (x1 * 100 + 1 / 2) / 2 ^ (53 : ℕ) ≤ (100 + 1 / 100 + 1 / 2) / 2 ^ (53 : ℕ) :=
    div_le_div_of_nonneg_right (by linarith) (by norm_num)
  have e53 : (302 : ℚ) / 2 ^ (53 : ℕ) = 302 * (1 / 2 ^ (53 : ℕ)) := by ring
  have e1 : (100 + 1 / 100 : ℚ) / 2 ^ (53 : ℕ) = (100 + 1 / 100) * (1 / 2 ^ (53 : ℕ)) := by ring
  have e2 : (100 + 1 / 10 + 1 / 2 : ℚ) / 2 ^ (53 : ℕ)
      = (100 + 1 / 10 + 1 / 2) * (1 / 2 ^ (53 : ℕ)) := by ring
  have e3 : (100 + 1 / 100 + 1 / 2 : ℚ) / 2 ^ (53 : ℕ)
      = (100 + 1 / 100 + 1 / 2) * (1 / 2 ^ (53 : ℕ)) := by ring
  have e4 : (1 : ℚ) / 2 ^ (53 : ℕ) / 100000 = (1 / 100000) * (1 / 2 ^ (53 : ℕ)) := by ring
  rw [e53]
  rw [e1] at hx1u
  rw [e2] at hx2u
  rw [e3] at hy1u
  rw [e4] at hv
  generalize (1 : ℚ) / 2 ^ (53 : ℕ) = u at *
  generalize (1 : ℚ) / 2 ^ (100 : ℕ) = w at *
  refine ⟨x1, x2, x3, y3, hx1, hx2, hx3, hy3, hx3nn, hy3nn, ?_, ?_⟩
  · rw [abs_le]; constructor <;> linarith
  · rw [abs_le]; constructor <;> linarith

/-- The conversion of an integer below `2 ^ 53` to `float64` is exact. -/
theorem round64_natCast (n : ℕ) (hn : n < 2 ^ 53) : round64 (n : ℚ) = some (n : ℚ) := by
  rcases Nat.eq_zero_or_pos n with h0 | hpos
  · subst h0
    simp [round64]
  · have hne : (n : ℚ) ≠ 0 := by exact_mod_cast (Nat.pos_iff_ne_zero.mp hpos)
    have hlog : Int.log 2 (n : ℚ) = (Nat.log 2 n : ℤ) := Int.log_natCast 2 n
    have hlt : Nat.log 2 n < 53 := Nat.log_lt_of_lt_pow (Nat.pos_iff_ne_zero.mp hpos) hn
    have he : ulpExp (n : ℚ) = -((52 - Nat.log 2 n : ℕ) : ℤ) := by
      unfold ulpExp
      rw [abs_of_nonneg (by positivity), hlog, max_eq_left (by omega)]
      omega
    have hdiv : (n : ℚ) / 2 ^ (-((52 - Nat.log 2 n : ℕ) : ℤ))
        = (((n * 2 ^ (52 - Nat.log 2 n) : ℕ) : ℤ) : ℚ) := by
      rw [zpow_neg, div_inv_eq_mul, zpow_natCast]
      push_cast
      ring
    have hpow : (2 : ℚ) ^ (52 - Nat.log 2 n) ≠ 0 := pow_ne_zero _ (by norm_num)
    have hr : ((((n * 2 ^ (52 - Nat.log 2 n) : ℕ) : ℤ) : ℚ)) * 2 ^ (-((52 - Nat.log 2 n : ℕ) : ℤ))
        = (n : ℚ) := by
      rw [zpow_neg, zpow_natCast]
      push_cast
      field_simp
    unfold round64
    rw [if_neg hne]
    simp only [he, hdiv, roundEven_intCast, hr]
    rw [if_pos]
    rw [abs_of_nonneg (by positivity)]
    have h1 : (n : ℚ) < 2 ^ (53 : ℕ) := by exact_mod_cast hn
    have h2 : (2 : ℚ) ^ (53 : ℕ) < 2 ^ (1024 : ℕ) := by norm_num
    linarith
/-- The integer part of a value within `302 * 2 ^ (-53)` of `100 * a / b + 1/2`, for `b` below
`2 ^ 43`: the rounded percentage, or one less when `100 * a / b` lies halfway between two
integers. -/
theorem floor_near (a b : ℤ) (ha : 0 ≤ a) (hab : a ≤ b) (hb0 : 0 < b) (hb : b < 2 ^ 43) (x : ℚ)
    (hx0 : 0 ≤ x) (hx : |x - (100 * ((a : ℚ) / b) + 1 / 2)| ≤ 302 / 2 ^ (53 : ℕ)) :
    round ((100 * a : ℚ) / b) - 1 ≤ ⌊x⌋ ∧ ⌊x⌋ ≤ round ((100 * a : ℚ) / b) ∧
    0 ≤ ⌊x⌋ ∧ ⌊x⌋ ≤ 100 ∧
    ((∀ k : ℤ, (100 * a : ℚ) / b ≠ k + 1 / 2) → ⌊x⌋ = round ((100 * a : ℚ) / b)) := by
  have hbq : (0 : ℚ) < b := by exact_mod_cast hb0
  have hbq' : (b : ℚ) < 2 ^ (43 : ℕ) := by exact_mod_cast hb
  have haq : (0 : ℚ) ≤ a := by exact_mod_cast ha
  have habq : (a : ℚ) ≤ b := by exact_mod_cast hab
  have hz : (100 * a : ℚ) / b = 100 * ((a : ℚ) / b) := by ring
  rw [hz]
  set z : ℚ := 100 * ((a : ℚ) / b) with hzdef
  set R : ℤ := round z with hR
  have hRfloor : R = ⌊z + 1 / 2⌋ := round_eq z
  have hR1 : (R : ℚ) ≤ z + 1 / 2 := by rw [hRfloor]; exact Int.floor_le _
  have hR2 : z + 1 / 2 < R + 1 := by rw [hRfloor]; exact Int.lt_floor_add_one _
  have hzb : z * b = 100 * a := by
    rw [hzdef]; field_simp
  have hz1 : z ≤ 100 := by
    rw [hzdef]
    have : (a : ℚ) / b ≤ 1 := (div_le_one hbq).mpr habq
    linarith
  obtain ⟨hxl, hxu⟩ := abs_le.mp hx
  have hsmall : (302 : ℚ) / 2 ^ (53 : ℕ) ≤ 1 / 2 := by norm_num
  have hdelta : (302 : ℚ) / 2 ^ (53 : ℕ) * (2 * b) ≤ 3 / 4 := by
    have e1 : (302 : ℚ) / 2 ^ (53 : ℕ) * (2 * 2 ^ (43 : ℕ)) ≤ 3 / 4 := by norm_num
    have e2 : (302 : ℚ) / 2 ^ (53 : ℕ) * (2 * b) ≤ 302 / 2 ^ (53 : ℕ) * (2 * 2 ^ (43 : ℕ)) :=
      mul_le_mul_of_nonneg_left (by linarith) (by norm_num)
    linarith
  -- the exact value times `2 * b` is the integer `200 * a + b`
  have hup : (200 * a + b + 1 : ℤ) ≤ (R + 1) * (2 * b) := by
    have : ((200 * a + b : ℤ) : ℚ) < (((R + 1) * (2 * b) : ℤ) : ℚ) := by
      push_cast
      have e1 := mul_lt_mul_of_pos_right hR2 (by linarith : (0 : ℚ) < 2 * b)
      have e2 : (z + 1 / 2) * (2 * b) = 2 * (z * b) + b := by ring
      linarith
    have := Int.cast_lt.mp this
    omega
  have hupq : (200 * a + b + 1 : ℚ) ≤ (R + 1) * (2 * b) := by exact_mod_cast hup
  have hxlt : x < R + 1 := by
    by_contra hcon
    push_neg at hcon
    have h2b : (0 : ℚ) < 2 * b := by linarith
    have e1 := mul_le_mul_of_nonneg_right hcon (le_of_lt h2b)
    have e2 : x * (2 * b) ≤ (z + 1 / 2 + 302 / 2 ^ (53 : ℕ)) * (2 * b) :=
      mul_le_mul_of_nonneg_right (by linarith) (le_of_lt h2b)
    have e3 : (z + 1 / 2 + 302 / 2 ^ (53 : ℕ)) * (2 * b)
        = 2 * (z * b) + b + 302 / 2 ^ (53 : ℕ) * (2 * b) := by ring
    linarith
  have hxge : (R : ℚ) - 1 ≤ x := by linarith
  have hfloor_le : ⌊x⌋ ≤ R := by
    have : ⌊x⌋ < R + 1 := Int.floor_lt.mpr (by exact_mod_cast hxlt)
    omega
  have hfloor_ge : R - 1 ≤ ⌊x⌋ := Int.le_floor.mpr (by push_cast; exact hxge)
  have hRle : R ≤ 100 := by
    have : (R : ℚ) < 101 := by linarith
    have : R < 101 := by exact_mod_cast this
    omega
  refine ⟨hfloor_ge, hfloor_le, Int.floor_nonneg.mpr hx0, le_trans hfloor_le hRle, ?_⟩
  intro hnotie
  have hlow : (R * (2 * b) + 1 : ℤ) ≤ 200 * a + b := by
    have h1 : ((R * (2 * b) : ℤ) : ℚ) ≤ ((200 * a + b : ℤ) : ℚ) := by
      push_cast
      have e1 := mul_le_mul_of_nonneg_right hR1 (by linarith : (0 : ℚ) ≤ 2 * b)
      have e2 : (z + 1 / 2) * (2 * b) = 2 * (z * b) + b := by ring
      linarith
    have h2 := Int.cast_le.mp h1
    have hne : R * (2 * b) ≠ 200 * a + b := by
      intro heq
      apply hnotie (R - 1)
      have heq' : (R : ℚ) * (2 * b) = 200 * a + b := by exact_mod_cast heq
      have : z * (2 * b) = ((R : ℚ) - 1 + 1 / 2) * (2 * b) := by
        linear_combination 2 * hzb - heq'
      have h2b : (2 * (b : ℚ)) ≠ 0 := by positivity
      have := mul_right_cancel₀ h2b this
      push_cast
      linarith
    omega
  have hlowq : (R * (2 * b) + 1 : ℚ) ≤ 200 * a + b := by exact_mod_cast hlow
  have hxR : (R : ℚ) ≤ x := by
    by_contra hcon
    push_neg at hcon
    have h2b : (0 : ℚ) < 2 * b := by linarith
    have e1 := mul_lt_mul_of_pos_right hcon h2b
    have e2 : (z + 1 / 2 - 302 / 2 ^ (53 : ℕ)) * (2 * b) ≤ x * (2 * b) :=
      mul_le_mul_of_nonneg_right (by linarith) (le_of_lt h2b)
    have e3 : (z + 1 / 2 - 302 / 2 ^ (53 : ℕ)) * (2 * b)
        = 2 * (z * b) + b - 302 / 2 ^ (53 : ℕ) * (2 * b) := by ring
    linarith
  have : R ≤ ⌊x⌋ := Int.le_floor.mpr hxR
  omega


theorem round64_intCast (a : ℤ) (h0 : 0 ≤ a) (h : a < 2 ^ 53) :
    round64 (a : ℚ) = some (a : ℚ) := by
  obtain ⟨n, rfl⟩ := Int.eq_ofNat_of_zero_le h0
  have hn : n < 2 ^ 53 := by exact_mod_cast h
  simpa using round64_natCast n hn

/-- The conversion to `int` of a small non-negative value is its integer part. -/
theorem toInt_small (x : ℚ) (h0 : 0 ≤ x) (h : x ≤ 201) : toInt (some x) = some ⌊x⌋ := by
  unfold toInt
  have h1 : -(2 : ℚ) ^ (63 : ℕ) ≤ x := by
    have : -(2 : ℚ) ^ (63 : ℕ) ≤ 0 := by norm_num
    linarith
  have h2 : x < (2 : ℚ) ^ (63 : ℕ) := by
    have : (201 : ℚ) < 2 ^ (63 : ℕ) := by norm_num
    linarith
  simp only [h1, h2, and_self, if_true, h0]

/-- C3 (amended): for `Min < Max`, `Min ≤ Vol ≤ Max` and `Max - Min < 2 ^ 43`, `Pct()` (the
integer part of `Frac()*100 + 0.5` in `float64`, product and sum rounded separately or fused)
lies in 0..100 and is the rounded percentage `round(100*(Vol-Min)/(Max-Min))` or one less; it is
the rounded percentage whenever `100*(Vol-Min)/(Max-Min)` is not exactly halfway between two
integers. -/
theorem Pct_round (v : Volume) (hmin : v.Min < v.Max) (hlo : v.Min ≤ v.Vol)
    (hhi : v.Vol ≤ v.Max) (hfit : v.Max - v.Min < 2 ^ 43) :
    ∃ p pf : Int, v.Pct = some p ∧ v.PctFused = some pf ∧
      (0 ≤ p ∧ p ≤ 100 ∧ pctSpec v - 1 ≤ p ∧ p ≤ pctSpec v) ∧
      (0 ≤ pf ∧ pf ≤ 100 ∧ pctSpec v - 1 ≤ pf ∧ pf ≤ pctSpec v) ∧
      ((∀ k : ℤ, (((100 * (v.Vol - v.Min) : ℤ) : ℚ)) / (((v.Max - v.Min : ℤ)) : ℚ) ≠ k + 1 / 2) →
        p = pctSpec v ∧ pf = pctSpec v) := by
  have ha0 : 0 ≤ v.Vol - v.Min := by omega
  have hab : v.Vol - v.Min ≤ v.Max - v.Min := by omega
  have hb0 : 0 < v.Max - v.Min := by omega
  have hsa : sub64 v.Vol v.Min = v.Vol - v.Min :=
    wrap64_of_isInt64 _ (by unfold IsInt64; constructor <;> omega)
  have hsb : sub64 v.Max v.Min = v.Max - v.Min :=
    wrap64_of_isInt64 _ (by unfold IsInt64; constructor <;> omega)
  have hfa := round64_intCast (v.Vol - v.Min) ha0 (by omega)
  have hfb := round64_intCast (v.Max - v.Min) (le_of_lt hb0) (by omega)
  have hbq : (0 : ℚ) < ((v.Max - v.Min : ℤ) : ℚ) := by exact_mod_cast hb0
  have hbne : ((v.Max - v.Min : ℤ) : ℚ) ≠ 0 := ne_of_gt hbq
  have hq0 : (0 : ℚ) ≤ ((v.Vol - v.Min : ℤ) : ℚ) / ((v.Max - v.Min : ℤ) : ℚ) :=
    div_nonneg (by exact_mod_cast ha0) (le_of_lt hbq)
  have hq1 : ((v.Vol - v.Min : ℤ) : ℚ) / ((v.Max - v.Min : ℤ) : ℚ) ≤ 1 :=
    (div_le_one hbq).mpr (by exact_mod_cast hab)
  obtain ⟨x1, x2, x3, y3, hx1, hx2, hx3, hy3, hx3nn, hy3nn, hx3e, hy3e⟩ :=
    pct_error _ hq0 hq1
  have hfrac : v.Frac = some x1 := by
    unfold Volume.Frac float64
    rw [hsa, hsb, hfa, hfb]
    simp only [fdiv, hbne, if_false]
    exact hx1
  have hx3le : x3 ≤ 201 := by
    have := (abs_le.mp hx3e).2
    have : (302 : ℚ) / 2 ^ (53 : ℕ) ≤ 1 := by norm_num
    linarith
  have hy3le : y3 ≤ 201 := by
    have := (abs_le.mp hy3e).2
    have : (302 : ℚ) / 2 ^ (53 : ℕ) ≤ 1 := by norm_num
    linarith
  have hp : v.Pct = some ⌊x3⌋ := by
    unfold Volume.Pct
    rw [hfrac]
    simp only [fmul, fadd, hx2, hx3]
    exact toInt_small x3 hx3nn hx3le
  have hpf : v.PctFused = some ⌊y3⌋ := by
    unfold Volume.PctFused
    rw [hfrac]
    simp only [fma, hy3]
    exact toInt_small y3 hy3nn hy3le
  have hcast : ((100 * (v.Vol - v.Min) : ℤ) : ℚ) / ((v.Max - v.Min : ℤ) : ℚ)
      = (100 * ((v.Vol - v.Min : ℤ) : ℚ)) / ((v.Max - v.Min : ℤ) : ℚ) := by push_cast; ring
  have hx := floor_near (v.Vol - v.Min) (v.Max - v.Min) ha0 hab hb0 hfit x3 hx3nn hx3e
  have hy := floor_near (v.Vol - v.Min) (v.Max - v.Min) ha0 hab hb0 hfit y3 hy3nn hy3e
  refine ⟨⌊x3⌋, ⌊y3⌋, hp, hpf, ?_, ?_, ?_⟩
  · unfold pctSpec
    rw [hcast]
    exact ⟨hx.2.2.1, hx.2.2.2.1, hx.1, hx.2.1⟩
  · unfold pctSpec
    rw [hcast]
    exact ⟨hy.2.2.1, hy.2.2.2.1, hy.1, hy.2.1⟩
  · intro hnotie
    unfold pctSpec
    rw [hcast] at hnotie ⊢
    exact ⟨hx.2.2.2.2 hnotie, hy.2.2.2.2 hnotie⟩

/-- The example of the specification: `Min = 0`, `Max = 65536`, `Vol = 32768` gives 50. -/
theorem Pct_round_witness :
    Volume.Pct ⟨0, 65536, 32768, false⟩ = some 50 ∧
    Volume.PctFused ⟨0, 65536, 32768, false⟩ = some 50 := by
  obtain ⟨p, pf, hp, hpf, _, _, hex⟩ :=
    Pct_round ⟨0, 65536, 32768, false⟩ (by decide) (by decide) (by decide) (by decide)
  have hspec : pctSpec ⟨0, 65536, 32768, false⟩ = 50 := by
    show round (((100 * (32768 - 0) : ℤ) : ℚ) / (((65536 - 0 : ℤ)) : ℚ)) = 50
    rw [round_eq]
    exact Int.floor_eq_iff.mpr ⟨by norm_num, by norm_num⟩
  have hnotie : ∀ k : ℤ,
      (((100 * ((⟨0, 65536, 32768, false⟩ : Volume).Vol
          - (⟨0, 65536, 32768, false⟩ : Volume).Min) : ℤ) : ℚ))
        / ((((⟨0, 65536, 32768, false⟩ : Volume).Max
          - (⟨0, 65536, 32768, false⟩ : Volume).Min : ℤ)) : ℚ) ≠ k + 1 / 2 := by
    intro k h
    norm_num at h
    have h2 : ((2 * k + 1 : ℤ) : ℚ) = ((100 : ℤ) : ℚ) := by push_cast; linarith
    have h3 : 2 * k + 1 = 100 := by exact_mod_cast h2
    omega
  obtain ⟨h1, h2⟩ := hex hnotie
  rw [hp, hpf, h1, h2, hspec]
  exact ⟨rfl, rfl⟩

/-- A value less than one half away from an integer is rounded to it. -/
theorem roundEven_eq (x : ℚ) (m : ℤ) (h : |x - m| < 1 / 2) : roundEven x = m := by
  obtain ⟨h1, h2⟩ := abs_lt.mp h
  unfold roundEven
  rcases le_or_lt (m : ℚ) x with hle | hlt
  · have hf : ⌊x⌋ = m := Int.floor_eq_iff.mpr ⟨hle, by linarith⟩
    rw [hf, if_pos (by linarith)]
  · have hf : ⌊x⌋ = m - 1 := Int.floor_eq_iff.mpr ⟨by push_cast; linarith, by push_cast; linarith⟩
    rw [hf]
    push_cast
    rw [if_neg (by linarith), if_pos (by linarith)]
    ring

/-- The rounding of a positive normal value, from its binary exponent `k` and the integer `m`
nearest to its multiple of the unit in the last place. -/
theorem round64_eq (q : ℚ) (k m : ℤ) (hq : 0 < q) (hk : -1022 ≤ k) (hlo : (2 : ℚ) ^ k ≤ q)
    (hhi : q < (2 : ℚ) ^ (k + 1)) (hm : |q / 2 ^ (k - 52) - m| < 1 / 2)
    (hfin : |(m : ℚ) * 2 ^ (k - 52)| < 2 ^ (1024 : ℕ)) :
    round64 q = some ((m : ℚ) * 2 ^ (k - 52)) := by
  have hlog : Int.log 2 q = k := by
    apply le_antisymm
    · have := (Int.lt_zpow_iff_log_lt (R := ℚ) (b := 2) (by norm_num) hq).mp
        (by simpa using hhi)
      omega
    · exact (Int.zpow_le_iff_le_log (R := ℚ) (b := 2) (by norm_num) hq).mp (by simpa using hlo)
  have he : ulpExp q = k - 52 := by
    unfold ulpExp
    rw [abs_of_pos hq, hlog, max_eq_left hk]
  unfold round64
  rw [if_neg (ne_of_gt hq)]
  simp only [he, roundEven_eq _ m hm]
  rw [if_pos hfin]

/-- The steps of `Frac` and `Pct` on a snapshot whose differences `Vol - Min` and `Max - Min`
are converted exactly: the quotient is rounded to `x1`, the product to `x2`, the sum to `x3`
(or product and sum at once to `y3`), and the last value is converted to `int`. -/
theorem Pct_trace (v : Volume) (a b : ℤ) (x1 x2 x3 y3 : ℚ)
    (ha : sub64 v.Vol v.Min = a) (hb : sub64 v.Max v.Min = b)
    (ha0 : 0 ≤ a) (ha1 : a < 2 ^ 53) (hb0 : 0 < b) (hb1 : b < 2 ^ 53)
    (h1 : round64 ((a : ℚ) / (b : ℚ)) = some x1)
    (h2 : round64 (x1 * 100) = some x2)
    (h3 : round64 (x2 + 1 / 2) = some x3)
    (h4 : round64 (x1 * 100 + 1 / 2) = some y3) :
    v.Frac = some x1 ∧ fmul v.Frac (some 100) = some x2 ∧
    v.Pct = toInt (some x3) ∧ v.PctFused = toInt (some y3) := by
  have hbne : (b : ℚ) ≠ 0 := by
    have : (0 : ℚ) < b := by exact_mod_cast hb0
    exact ne_of_gt this
  have hfrac : v.Frac = some x1 := by
    unfold Volume.Frac float64
    rw [ha, hb, round64_intCast a ha0 ha1, round64_intCast b (le_of_lt hb0) hb1]
    simp only [fdiv, hbne, if_false]
    exact h1
  refine ⟨hfrac, ?_, ?_, ?_⟩
  · rw [hfrac]
    simp only [fmul, h2]
  · unfold Volume.Pct
    rw [hfrac]
    simp only [fmul, fadd, h2, h3]
  · unfold Volume.PctFused
    rw [hfrac]
    simp only [fma, h4]

/-- C3 as stated fails: for `Min = 0`, `Max = 200`, `Vol = 115` the percentage is exactly 57.5,
which rounds to 58; but `Frac()` is the `float64` nearest to 0.575, the product `Frac()*100` is
rounded to 57.49999999999999 (below 57.5), and `Pct()` is 57, fused or not. -/
theorem Pct_tie_rounds_down :
    Volume.Frac ⟨0, 200, 115, false⟩ = some (2589569785738035 / 4503599627370496) ∧
    fmul (Volume.Frac ⟨0, 200, 115, false⟩) (some 100) = some (8092405580431359 / 140737488355328) ∧
    Volume.Pct ⟨0, 200, 115, false⟩ = some 57 ∧
    Volume.PctFused ⟨0, 200, 115, false⟩ = some 57 ∧
    pctSpec ⟨0, 200, 115, false⟩ = 58 := by
  have h1 : round64 ((((115 : ℤ) : ℚ)) / (((200 : ℤ) : ℚ))) = some (2589569785738035 / 4503599627370496) := by
    have h := round64_eq ((((115 : ℤ) : ℚ)) / (((200 : ℤ) : ℚ))) (-1) 5179139571476070 (by norm_num) (by norm_num) (by norm_num)
      (by norm_num) (by rw [abs_lt]; constructor <;> norm_num)
      (by rw [abs_lt]; constructor <;> norm_num)
    rw [h]
    norm_num
  have h2 : round64 ((2589569785738035 / 4503599627370496) * 100) = some (8092405580431359 / 140737488355328) := by
    have h := round64_eq ((2589569785738035 / 4503599627370496) * 100) 5 8092405580431359 (by norm_num) (by norm_num) (by norm_num)
      (by norm_num) (by rw [abs_lt]; constructor <;> norm_num)
      (by rw [abs_lt]; constructor <;> norm_num)
    rw [h]
    norm_num
  have h3 : round64 ((8092405580431359 / 140737488355328) + 1 / 2) = some (8162774324609023 / 140737488355328) := by
    have h := round64_eq ((8092405580431359 / 140737488355328) + 1 / 2) 5 8162774324609023 (by norm_num) (by norm_num) (by norm_num)
      (by norm_num) (by rw [abs_lt]; constructor <;> norm_num)
      (by rw [abs_lt]; constructor <;> norm_num)
    rw [h]
    norm_num
  have h4 : round64 ((2589569785738035 / 4503599627370496) * 100 + 1 / 2) = some (8162774324609023 / 140737488355328) := by
    have h := round64_eq ((2589569785738035 / 4503599627370496) * 100 + 1 / 2) 5 8162774324609023 (by norm_num) (by norm_num) (by norm_num)
      (by norm_num) (by rw [abs_lt]; constructor <;> norm_num)
      (by rw [abs_lt]; constructor <;> norm_num)
    rw [h]
    norm_num
  have h5 : toInt (some (8162774324609023 / 140737488355328)) = some 57 := by
    rw [toInt_small _ (by norm_num) (by norm_num)]
    have hf : ⌊(8162774324609023 / 140737488355328 : ℚ)⌋ = 57 := Int.floor_eq_iff.mpr ⟨by norm_num, by norm_num⟩
    rw [hf]
  have h6 : toInt (some (8162774324609023 / 140737488355328)) = some 57 := by
    rw [toInt_small _ (by norm_num) (by norm_num)]
    have hf : ⌊(8162774324609023 / 140737488355328 : ℚ)⌋ = 57 := Int.floor_eq_iff.mpr ⟨by norm_num, by norm_num⟩
    rw [hf]
  have hspec : pctSpec ⟨0, 200, 115, false⟩ = 58 := by
    show round (((100 * (115 - 0) : ℤ) : ℚ) / (((200 - 0 : ℤ)) : ℚ)) = 58
    rw [round_eq]
    exact Int.floor_eq_iff.mpr ⟨by norm_num, by norm_num⟩
  have ht := Pct_trace ⟨0, 200, 115, false⟩ 115 200 _ _ _ _ (by decide) (by decide) (by norm_num)
    (by norm_num) (by norm_num) (by norm_num) h1 h2 h3 h4
  simp only [h5, h6] at ht
  exact ⟨ht.1, ht.2.1, ht.2.2.1, ht.2.2.2, hspec⟩

/-- On a wide range the rounding can also go up at a value that is not halfway: for `Min = 0`,
`Max = 61901748646859`, `Vol = 43021715309567` the percentage is less than 69.5 and rounds to
69, but the `float64` product is rounded to 69.5, the sum is 70 and `Pct()` is 70. -/
theorem Pct_wide_range_rounds_up :
    Volume.Frac ⟨0, 61901748646859, 43021715309567, false⟩ = some (6260003482044989 / 9007199254740992) ∧
    fmul (Volume.Frac ⟨0, 61901748646859, 43021715309567, false⟩) (some 100) = some (139 / 2) ∧
    Volume.Pct ⟨0, 61901748646859, 43021715309567, false⟩ = some 70 ∧
    Volume.PctFused ⟨0, 61901748646859, 43021715309567, false⟩ = some 70 ∧
    pctSpec ⟨0, 61901748646859, 43021715309567, false⟩ = 69 := by
  have h1 : round64 ((((43021715309567 : ℤ) : ℚ)) / (((61901748646859 : ℤ) : ℚ))) = some (6260003482044989 / 9007199254740992) := by
    have h := round64_eq ((((43021715309567 : ℤ) : ℚ)) / (((61901748646859 : ℤ) : ℚ))) (-1) 6260003482044989 (by norm_num) (by norm_num) (by norm_num)
      (by norm_num) (by rw [abs_lt]; constructor <;> norm_num)
      (by rw [abs_lt]; constructor <;> norm_num)
    rw [h]
    norm_num
  have h2 : round64 ((6260003482044989 / 9007199254740992) * 100) = some (139 / 2) := by
    have h := round64_eq ((6260003482044989 / 9007199254740992) * 100) 6 4890627720347648 (by norm_num) (by norm_num) (by norm_num)
      (by norm_num) (by rw [abs_lt]; constructor <;> norm_num)
      (by rw [abs_lt]; constructor <;> norm_num)
    rw [h]
    norm_num
  have h3 : round64 ((139 / 2) + 1 / 2) = some (70) := by
    have h := round64_eq ((139 / 2) + 1 / 2) 6 4925812092436480 (by norm_num) (by norm_num) (by norm_num)
      (by norm_num) (by rw [abs_lt]; constructor <;> norm_num)
      (by rw [abs_lt]; constructor <;> norm_num)
    rw [h]
    norm_num
  have h4 : round64 ((6260003482044989 / 9007199254740992) * 100 + 1 / 2) = some (70) := by
    have h := round64_eq ((6260003482044989 / 9007199254740992) * 100 + 1 / 2) 6 4925812092436480 (by norm_num) (by norm_num) (by norm_num)
      (by norm_num) (by rw [abs_lt]; constructor <;> norm_num)
      (by rw [abs_lt]; constructor <;> norm_num)
    rw [h]
    norm_num
  have h5 : toInt (some (70)) = some 70 := by
    rw [toInt_small _ (by norm_num) (by norm_num)]
    have hf : ⌊(70 : ℚ)⌋ = 70 := Int.floor_eq_iff.mpr ⟨by norm_num, by norm_num⟩
    rw [hf]
  have h6 : toInt (some (70)) = some 70 := by
    rw [toInt_small _ (by norm_num) (by norm_num)]
    have hf : ⌊(70 : ℚ)⌋ = 70 := Int.floor_eq_iff.mpr ⟨by norm_num, by norm_num⟩
    rw [hf]
  have hspec : pctSpec ⟨0, 61901748646859, 43021715309567, false⟩ = 69 := by
    show round (((100 * (43021715309567 - 0) : ℤ) : ℚ) / (((61901748646859 - 0 : ℤ)) : ℚ)) = 69
    rw [round_eq]
    exact Int.floor_eq_iff.mpr ⟨by norm_num, by norm_num⟩
  have ht := Pct_trace ⟨0, 61901748646859, 43021715309567, false⟩ 43021715309567 61901748646859 _ _ _ _ (by decide) (by decide) (by norm_num)
    (by norm_num) (by norm_num) (by norm_num) h1 h2 h3 h4
  simp only [h5, h6] at ht
  exact ⟨ht.1, ht.2.1, ht.2.2.1, ht.2.2.2, hspec⟩

/-- For `Min = Max` the fraction `0/0` is NaN, whose conversion to `int` is
implementation-dependent. -/
theorem Pct_of_empty_range : Volume.Frac ⟨7, 7, 7, false⟩ = none ∧
    Volume.Pct ⟨7, 7, 7, false⟩ = none ∧ Volume.PctFused ⟨7, 7, 7, false⟩ = none := by
  have h0 : sub64 7 7 = 0 := by decide
  have hf : Volume.Frac ⟨7, 7, 7, false⟩ = none := by
    unfold Volume.Frac float64
    simp only [h0]
    simp [round64, fdiv]
  refine ⟨hf, ?_, ?_⟩
  · unfold Volume.Pct
    rw [hf]
    rfl
  · unfold Volume.PctFused
    rw [hf]
    rfl

/-! ## The range invariant on a device above its base volume -/

/-- C2 fails on the code: a device at 150 % (base volume 65536, one channel at 98304) makes
`getVolume` return, without error, the snapshot `{Min 0, Max 65536, Vol 98304}`, whose `Vol`
exceeds `Max`, and `SetMuted` hands the same out-of-range values to the delegate.  The code's own
documentation relies on the range: on this snapshot `Pct()`, documented as "in the range 0-100",
is 150, and a scroll-up of the click handler, documented to raise the volume, sends
`setVolume(65536)`, the clamp that `SetVolume` applies and `getVolume` does not. -/
theorem getVolume_breaks_range :
    (getVolume (deviceBus 65536 [98304] false) "/org/pulseaudio/core1/sink0" St.init).1
      = Res.ok ⟨0, 65536, 98304, false⟩ ∧
    ¬ ((⟨0, 65536, 98304, false⟩ : Volume).Vol ≤ (⟨0, 65536, 98304, false⟩ : Volume).Max) ∧
    updates (Volume.SetMuted ⟨0, 65536, 98304, false⟩ okController true) = [⟨0, 65536, 98304, true⟩] ∧
    ¬ ((⟨0, 65536, 98304, true⟩ : Volume).Vol ≤ (⟨0, 65536, 98304, true⟩ : Volume).Max) ∧
    Volume.Pct ⟨0, 65536, 98304, false⟩ = some 150 ∧
    Volume.PctFused ⟨0, 65536, 98304, false⟩ = some 150 ∧
    defaultClickHandler ⟨0, 65536, 98304, false⟩ okController true ⟨Button.ScrollUp⟩
      = [Effect.setVolume 65536, Effect.update ⟨0, 65536, 65536, false⟩] := by
  have h1 : round64 ((((98304 : ℤ) : ℚ)) / (((65536 : ℤ) : ℚ))) = some (3 / 2) := by
    have h := round64_eq ((((98304 : ℤ) : ℚ)) / (((65536 : ℤ) : ℚ))) 0 6755399441055744 (by norm_num) (by norm_num) (by norm_num)
      (by norm_num) (by rw [abs_lt]; constructor <;> norm_num)
      (by rw [abs_lt]; constructor <;> norm_num)
    rw [h]
    norm_num
  have h2 : round64 ((3 / 2) * 100) = some (150) := by
    have h := round64_eq ((3 / 2) * 100) 7 5277655813324800 (by norm_num) (by norm_num) (by norm_num)
      (by norm_num) (by rw [abs_lt]; constructor <;> norm_num)
      (by rw [abs_lt]; constructor <;> norm_num)
    rw [h]
    norm_num
  have h3 : round64 ((150) + 1 / 2) = some (301 / 2) := by
    have h := round64_eq ((150) + 1 / 2) 7 5295247999369216 (by norm_num) (by norm_num) (by norm_num)
      (by norm_num) (by rw [abs_lt]; constructor <;> norm_num)
      (by rw [abs_lt]; constructor <;> norm_num)
    rw [h]
    norm_num
  have h4 : round64 ((3 / 2) * 100 + 1 / 2) = some (301 / 2) := by
    have h := round64_eq ((3 / 2) * 100 + 1 / 2) 7 5295247999369216 (by norm_num) (by norm_num) (by norm_num)
      (by norm_num) (by rw [abs_lt]; constructor <;> norm_num)
      (by rw [abs_lt]; constructor <;> norm_num)
    rw [h]
    norm_num
  have h5 : toInt (some (301 / 2)) = some 150 := by
    rw [toInt_small _ (by norm_num) (by norm_num)]
    have hf : ⌊(301 / 2 : ℚ)⌋ = 150 := Int.floor_eq_iff.mpr ⟨by norm_num, by norm_num⟩
    rw [hf]
  have h6 : toInt (some (301 / 2)) = some 150 := by
    rw [toInt_small _ (by norm_num) (by norm_num)]
    have hf : ⌊(301 / 2 : ℚ)⌋ = 150 := Int.floor_eq_iff.mpr ⟨by norm_num, by norm_num⟩
    rw [hf]
  have ht := Pct_trace ⟨0, 65536, 98304, false⟩ 98304 65536 _ _ _ _ (by decide) (by decide) (by norm_num)
    (by norm_num) (by norm_num) (by norm_num) h1 h2 h3 h4
  simp only [h5, h6] at ht
  exact ⟨by decide, by decide, by decide, by decide, ht.2.2.1, ht.2.2.2, by decide⟩

end Barry
